import Mathlib

/-!
The header px4_log.h: log line composition and filtering.

A shallow embedding of `src/platforms/px4_log.h` (the branch taken when
`__PX4_ROS` is not defined).  The header is preprocessor text: every output
format macro is a fixed sequence of format pieces followed by a fixed sequence
of argument pieces, wrapped by `__px4__log_startline` / `__px4__log_endline`.
The embedding keeps that shape: a `Template` is the pair of piece sequences
written in a macro body, `Template.format` and `evalArgs` give the format
string and the argument values the C compiler sees after expansion, and
`Template.exec` is the statement `if (level <= __px4_log_level_current)
printf(...)`.
-/

namespace PX4Log

/-! ## Values and the formatted-output function of the C library -/

/-- A value passed through the variable argument list of `printf`. -/
inductive Val where
  | str (s : String)
  | int (i : Int)
  | uint (n : Nat)
  deriving DecidableEq

/-- The part of a conversion specification read so far: the `-` and `#`
flags, the field width, and how far the reader is (0 flags, 1 width,
2 length modifier). -/
structure Conv where
  left : Bool
  alt : Bool
  width : Nat
  stage : Nat
  deriving DecidableEq

/-- The state right after a `%`. -/
def Conv.init : Conv := ⟨false, false, 0, 0⟩

/-- What one character does inside a conversion specification. -/
inductive Directive where
  | more (k : Conv)
  | percent
  | convert
  | bad
  deriving DecidableEq

/-- Reads one character of a conversion specification (ISO C `fprintf`:
flags, then width, then length modifier, then the conversion specifier).
Only what the header and ordinary callers use is accepted: flags `-` and
`#`, a decimal width, length modifiers `l` and `h`, and the conversions
`d i u x X s`; `%%` writes a percent sign. -/
def directive (k : Conv) (c : Char) : Directive :=
  if c = '%' then (if k = Conv.init then .percent else .bad)
  else if c = '-' then (if k.stage = 0 then .more { k with left := true } else .bad)
  else if c = '#' then (if k.stage = 0 then .more { k with alt := true } else .bad)
  else if c = '0' then
    (if k.stage = 1 then .more { k with width := 10 * k.width } else .bad)
  else if c.isDigit then
    (if k.stage ≤ 1 then .more { k with width := 10 * k.width + (c.toNat - 48), stage := 1 }
     else .bad)
  else if c = 'l' ∨ c = 'h' then .more { k with stage := 2 }
  else if c = 'd' ∨ c = 'i' ∨ c = 'u' ∨ c = 'x' ∨ c = 'X' ∨ c = 's' then .convert
  else .bad

/-- Pads to the field width with spaces, on the right under the `-` flag. -/
def pad (left : Bool) (width : Nat) (cs : List Char) : List Char :=
  if left then cs ++ List.replicate (width - cs.length) ' '
  else List.replicate (width - cs.length) ' ' ++ cs

/-- Decimal digits of a natural number. -/
def decimal (n : Nat) : List Char := Nat.toDigits 10 n

/-- Hexadecimal digits, lower case (`%x`). -/
def hexLower (n : Nat) : List Char := Nat.toDigits 16 n

/-- Hexadecimal digits, upper case (`%X`). -/
def hexUpper (n : Nat) : List Char := (Nat.toDigits 16 n).map Char.toUpper

/-- The unsigned value an argument has when read by `u`, `x` or `X`; an
`int` that is not negative reads as the same value (`__LINE__` under `%u`). -/
def Val.asUnsigned : Val → Option Nat
  | .uint n => some n
  | .int i => if 0 ≤ i then some i.toNat else none
  | .str _ => none

/-- The signed value an argument has when read by `d` or `i`. -/
def Val.asSigned : Val → Option Int
  | .int i => some i
  | .uint n => some (n : Int)
  | .str _ => none

/-- The digits (before padding) a conversion writes for one argument.  With
the `#` flag a nonzero `x`/`X` result gets `0x`/`0X` in front. -/
def convBody (k : Conv) (c : Char) (a : Val) : Option (List Char) :=
  if c = 's' then
    match a with
    | .str s => some s.toList
    | _ => none
  else if c = 'd' ∨ c = 'i' then
    (a.asSigned).map fun i =>
      if i < 0 then '-' :: decimal i.natAbs else decimal i.toNat
  else if c = 'u' then (a.asUnsigned).map decimal
  else if c = 'x' then
    (a.asUnsigned).map fun n =>
      if k.alt ∧ n ≠ 0 then '0' :: 'x' :: hexLower n else hexLower n
  else if c = 'X' then
    (a.asUnsigned).map fun n =>
      if k.alt ∧ n ≠ 0 then '0' :: 'X' :: hexUpper n else hexUpper n
  else none

/-- One converted argument, padded to the field width. -/
def convert (k : Conv) (c : Char) (a : Val) : Option (List Char) :=
  (convBody k c a).map (pad k.left k.width)

/-- Puts already written characters in front of the rest of the output. -/
def emit (out : List Char) (r : Option (List Char × List Val)) :
    Option (List Char × List Val) :=
  r.map fun p => (out ++ p.1, p.2)

/-- The formatting loop of `printf` over the characters of the format.  The
first argument is `none` in ordinary text and `some k` inside a conversion
specification.  Returns the characters written and the arguments left over,
or `none` where the C standard leaves the behaviour undefined (a missing or
ill-typed argument, an unfinished or unknown conversion). -/
def vprintf : Option Conv → List Char → List Val → Option (List Char × List Val)
  | none, [], args => some ([], args)
  | some _, [], _ => none
  | none, c :: cs, args =>
    if c = '%' then vprintf (some Conv.init) cs args
    else emit [c] (vprintf none cs args)
  | some k, c :: cs, args =>
    match directive k c with
    | .more k' => vprintf (some k') cs args
    | .percent => emit ['%'] (vprintf none cs args)
    | .bad => none
    | .convert =>
      match args with
      | [] => none
      | a :: rest =>
        match convert k c a with
        | none => none
        | some out => emit out (vprintf none cs rest)

/-- The line `printf(fmt, args...)` writes to the output sink. -/
def printf (fmt : String) (args : List Val) : Option String :=
  (vprintf none fmt.toList args).map fun p => String.mk p.1

/-! ## The header -/

/-- The array index and threshold constants `_PX4_LOG_LEVEL_*`. -/
def _PX4_LOG_LEVEL_ALWAYS : Int := 0
def _PX4_LOG_LEVEL_PANIC : Int := 1
def _PX4_LOG_LEVEL_ERROR : Int := 2
def _PX4_LOG_LEVEL_WARN : Int := 3
def _PX4_LOG_LEVEL_DEBUG : Int := 4

/-- The value `__px4_log_level_current` is initialised to. -/
def PX4_LOG_LEVEL_AT_RUN_TIME : Int := _PX4_LOG_LEVEL_WARN

/-- What a log statement reads from outside the header: the two `extern`
objects, the value the next `hrt_absolute_time()` call returns, the value
`pthread_self()` returns on the calling thread, and `__FILE__` / `__LINE__`
of the call site. -/
structure Env where
  __px4_log_level_str : Fin 5 → String
  __px4_log_level_current : Int
  hrt_absolute_time : Nat
  pthread_self : Nat
  __FILE__ : String
  __LINE__ : Nat

/-- The macro `PRIu64` of `<inttypes.h>`, as the comments of the header
spell it (`%10lu`); targets where it is `llu` format alike. -/
def PRIu64 : String := "lu"

/-- The format macros `__px4__log_*_fmt` (header lines 92-101). -/
def __px4__log_timestamp_fmt : String := "%-10" ++ PRIu64 ++ " "
def __px4__log_level_fmt : String := "%-5s "
def __px4__log_thread_fmt : String := "%#X "
def __px4__log_file_and_line_fmt : String := " (file %s line %u)"
def __px4__log_end_fmt : String := "\n"

/-- The pieces a macro body puts between `__px4__log_startline` and the
first comma: the `__px4__log_*_fmt` macros and the parameter `FMT`. -/
inductive FmtPiece where
  | level_fmt
  | timestamp_fmt
  | thread_fmt
  | FMT
  | file_and_line_fmt
  | end_fmt
  deriving DecidableEq

/-- The pieces a macro body puts after the format: the `__px4__log_*_arg`
macros and `, ##__VA_ARGS__`. -/
inductive ArgPiece where
  | level_arg
  | timestamp_arg
  | thread_arg
  | VA_ARGS
  | file_and_line_arg
  deriving DecidableEq

/-- The body of an output format macro. -/
structure Template where
  fmt : List FmtPiece
  arg : List ArgPiece
  deriving DecidableEq

/-- The string literal a format piece stands for. -/
def FmtPiece.text (FMT : String) : FmtPiece → String
  | .level_fmt => __px4__log_level_fmt
  | .timestamp_fmt => __px4__log_timestamp_fmt
  | .thread_fmt => __px4__log_thread_fmt
  | .FMT => FMT
  | .file_and_line_fmt => __px4__log_file_and_line_fmt
  | .end_fmt => __px4__log_end_fmt

/-- Adjacent string literals are concatenated into one string. -/
def formatOf (FMT : String) : List FmtPiece → String
  | [] => ""
  | p :: ps => p.text FMT ++ formatOf FMT ps

/-- The format string `printf` is called with. -/
def Template.format (T : Template) (FMT : String) : String :=
  formatOf FMT T.fmt

/-- An observable action of a log statement. -/
inductive Event where
  | hrt_absolute_time
  | pthread_self
  | printf (fmt : String) (args : List Val)
  deriving DecidableEq

/-- The array access `__px4_log_level_str[level]`; an index outside the
five entries has no defined value. -/
def level_str (env : Env) (level : Int) : Option String :=
  if h : 0 ≤ level ∧ level < 5 then
    some (env.__px4_log_level_str ⟨level.toNat, by omega⟩)
  else none

/-- Evaluates one argument piece: the calls it makes and the values it adds
to the argument list. -/
def evalArg (env : Env) (level : Int) (va : List Val) :
    ArgPiece → Option (List Event × List Val)
  | .level_arg => (level_str env level).map fun s => ([], [Val.str s])
  | .timestamp_arg => some ([.hrt_absolute_time], [Val.uint (env.hrt_absolute_time % 2 ^ 64)])
  | .thread_arg => some ([.pthread_self], [Val.uint (env.pthread_self % 2 ^ 32)])
  | .VA_ARGS => some ([], va)
  | .file_and_line_arg => some ([], [Val.str env.__FILE__, Val.int env.__LINE__])

/-- Evaluates the argument pieces of a macro body from left to right. -/
def evalArgs (env : Env) (level : Int) (va : List Val) :
    List ArgPiece → Option (List Event × List Val)
  | [] => some ([], [])
  | p :: ps =>
    match evalArg env level va p, evalArgs env level va ps with
    | some (e, v), some (es, vs) => some (e ++ es, v ++ vs)
    | _, _ => none

/-- The macro `__px4__log_startline(level)`,
`if (level <= __px4_log_level_current) printf(`: the call that follows it
is performed only under the guard. -/
def __px4__log_startline (env : Env) (level : Int) (call : Option (List Event)) :
    Option (List Event) :=
  if level ≤ env.__px4_log_level_current then call else some []

/-- The statement a template expands to,
`if (level <= __px4_log_level_current) printf(format, args...)`:
the events it performs (the arguments are evaluated, then `printf` is
called), or `none` when an argument has no defined value. -/
def Template.exec (T : Template) (env : Env) (level : Int) (FMT : String)
    (va : List Val) : Option (List Event) :=
  __px4__log_startline env level
    ((evalArgs env level va T.arg).map fun r => r.1 ++ [Event.printf (T.format FMT) r.2])

/-- The function `do_nothing(int level, ...)`: no action. -/
def do_nothing (_level : Int) (_va : List Val) : Option (List Event) := some []

/-- The macro `__px4_log` (header lines 122-128). -/
def __px4_log : Template where
  fmt := [.level_fmt, .FMT, .end_fmt]
  arg := [.level_arg, .VA_ARGS]

/-- The macro `__px4_log_timestamp` (header lines 138-147). -/
def __px4_log_timestamp : Template where
  fmt := [.level_fmt, .timestamp_fmt, .FMT, .end_fmt]
  arg := [.level_arg, .timestamp_arg, .VA_ARGS]

/-- The macro `__px4_log_timestamp_thread` (header lines 157-168). -/
def __px4_log_timestamp_thread : Template where
  fmt := [.level_fmt, .timestamp_fmt, .thread_fmt, .FMT, .end_fmt]
  arg := [.level_arg, .timestamp_arg, .thread_arg, .VA_ARGS]

/-- The macro `__px4_log_file_and_line` (header lines 178-189); its body
lists the timestamp format and argument, as the header does. -/
def __px4_log_file_and_line : Template where
  fmt := [.level_fmt, .timestamp_fmt, .FMT, .file_and_line_fmt, .end_fmt]
  arg := [.level_arg, .timestamp_arg, .VA_ARGS, .file_and_line_arg]

/-- The macro `__px4_log_timestamp_file_and_line` (header lines 200-211). -/
def __px4_log_timestamp_file_and_line : Template where
  fmt := [.level_fmt, .timestamp_fmt, .FMT, .file_and_line_fmt, .end_fmt]
  arg := [.level_arg, .timestamp_arg, .VA_ARGS, .file_and_line_arg]

/-- The macro `__px4_log_thread_file_and_line` (header lines 222-233). -/
def __px4_log_thread_file_and_line : Template where
  fmt := [.level_fmt, .thread_fmt, .FMT, .file_and_line_fmt, .end_fmt]
  arg := [.level_arg, .thread_arg, .VA_ARGS, .file_and_line_arg]

/-- The macro `__px4_log_timestamp_thread_file_and_line` (header lines
244-257). -/
def __px4_log_timestamp_thread_file_and_line : Template where
  fmt := [.level_fmt, .timestamp_fmt, .thread_fmt, .FMT, .file_and_line_fmt, .end_fmt]
  arg := [.level_arg, .timestamp_arg, .thread_arg, .VA_ARGS, .file_and_line_arg]

/-- An output format macro: `__px4_log_omit` or one of the seven templates. -/
inductive OutputMacro where
  | omit
  | log (T : Template)
  deriving DecidableEq

/-- The macro `__px4_log_omit` (header line 113): a call of `do_nothing`. -/
def __px4_log_omit : OutputMacro := .omit

/-- What a code level macro is defined as: an output format macro applied
to a level constant. -/
structure CodeMacro where
  out : OutputMacro
  level : Int
  deriving DecidableEq

/-- The build profile the `#if` chain at the end of the header selects. -/
inductive Profile where
  | Trace
  | Debug
  | Release
  | Default
  deriving DecidableEq

/-- The conditional chain at the end of the header: `TRACE_BUILD` first,
then `DEBUG_BUILD`, then `RELEASE_BUILD`, else the default branch. -/
def selectProfile (TRACE_BUILD DEBUG_BUILD RELEASE_BUILD : Bool) : Profile :=
  if TRACE_BUILD then .Trace
  else if DEBUG_BUILD then .Debug
  else if RELEASE_BUILD then .Release
  else .Default

/-- The macro `PX4_LOG` (header line 268), the same in every profile. -/
def PX4_LOG (_ : Profile) : CodeMacro := ⟨.log __px4_log, _PX4_LOG_LEVEL_ALWAYS⟩

/-- The macro `PX4_INFO` (header line 269), the same in every profile. -/
def PX4_INFO (_ : Profile) : CodeMacro := ⟨.log __px4_log, _PX4_LOG_LEVEL_ALWAYS⟩

/-- The macro `PX4_PANIC` in the four branches (header lines 275, 284, 293,
302). -/
def PX4_PANIC : Profile → CodeMacro
  | .Trace => ⟨.log __px4_log_timestamp_thread_file_and_line, _PX4_LOG_LEVEL_PANIC⟩
  | .Debug => ⟨.log __px4_log_timestamp_file_and_line, _PX4_LOG_LEVEL_PANIC⟩
  | .Release => ⟨.log __px4_log_file_and_line, _PX4_LOG_LEVEL_PANIC⟩
  | .Default => ⟨.log __px4_log_file_and_line, _PX4_LOG_LEVEL_PANIC⟩

/-- The macro `PX4_ERR` in the four branches (header lines 276, 285, 294,
303). -/
def PX4_ERR : Profile → CodeMacro
  | .Trace => ⟨.log __px4_log_timestamp_thread_file_and_line, _PX4_LOG_LEVEL_ERROR⟩
  | .Debug => ⟨.log __px4_log_timestamp_file_and_line, _PX4_LOG_LEVEL_ERROR⟩
  | .Release => ⟨.log __px4_log_file_and_line, _PX4_LOG_LEVEL_ERROR⟩
  | .Default => ⟨.log __px4_log_file_and_line, _PX4_LOG_LEVEL_ERROR⟩

/-- The macro `PX4_WARN` in the four branches (header lines 277, 286, 295,
304). -/
def PX4_WARN : Profile → CodeMacro
  | .Trace => ⟨.log __px4_log_timestamp_thread_file_and_line, _PX4_LOG_LEVEL_WARN⟩
  | .Debug => ⟨.log __px4_log_timestamp_file_and_line, _PX4_LOG_LEVEL_WARN⟩
  | .Release => ⟨__px4_log_omit, _PX4_LOG_LEVEL_WARN⟩
  | .Default => ⟨.log __px4_log_file_and_line, _PX4_LOG_LEVEL_WARN⟩

/-- The macro `PX4_DEBUG` in the four branches (header lines 278, 287, 296,
305). -/
def PX4_DEBUG : Profile → CodeMacro
  | .Trace => ⟨.log __px4_log_timestamp_thread, _PX4_LOG_LEVEL_DEBUG⟩
  | .Debug => ⟨.log __px4_log_timestamp, _PX4_LOG_LEVEL_DEBUG⟩
  | .Release => ⟨__px4_log_omit, _PX4_LOG_LEVEL_DEBUG⟩
  | .Default => ⟨__px4_log_omit, _PX4_LOG_LEVEL_DEBUG⟩

/-- The six call-site forms. -/
inductive Call where
  | LOG
  | INFO
  | PANIC
  | ERR
  | WARN
  | DEBUG
  deriving DecidableEq

/-- The definition of a call-site form under a profile. -/
def Call.macroOf (c : Call) (P : Profile) : CodeMacro :=
  match c with
  | .LOG => PX4_LOG P
  | .INFO => PX4_INFO P
  | .PANIC => PX4_PANIC P
  | .ERR => PX4_ERR P
  | .WARN => PX4_WARN P
  | .DEBUG => PX4_DEBUG P

/-- Runs an expanded code level macro. -/
def CodeMacro.exec (m : CodeMacro) (env : Env) (FMT : String) (va : List Val) :
    Option (List Event) :=
  match m.out with
  | .omit => do_nothing m.level va
  | .log T => T.exec env m.level FMT va

/-- Runs the call `PX4_xxx(FMT, va...)` compiled under profile `P`. -/
def run (P : Profile) (env : Env) (c : Call) (FMT : String) (va : List Val) :
    Option (List Event) :=
  (c.macroOf P).exec env FMT va

/-! ## Observations on a run -/

/-- The call is compiled to a guarded `printf`, not to `do_nothing`. -/
def active (P : Profile) (c : Call) : Bool :=
  match (c.macroOf P).out with
  | .omit => false
  | .log _ => true

/-- The template of an active call, `none` for a compiled-out one. -/
def templateOf (P : Profile) (c : Call) : Option Template :=
  match (c.macroOf P).out with
  | .omit => none
  | .log T => some T

/-- The event is a call of the output sink. -/
def Event.isSink : Event → Bool
  | .printf _ _ => true
  | _ => false

/-- Number of calls of the output sink `printf`. -/
def sinkCalls (tr : List Event) : Nat := tr.countP Event.isSink

/-- Number of calls of the clock source `hrt_absolute_time`. -/
def clockCalls (tr : List Event) : Nat := tr.count Event.hrt_absolute_time

/-- Number of calls of the thread identity source `pthread_self`. -/
def threadCalls (tr : List Event) : Nat := tr.count Event.pthread_self

/-- The lines the events write to the sink, in order; `none` when a
`printf` call has undefined behaviour. -/
def lines : List Event → Option (List String)
  | [] => some []
  | .printf fmt args :: tr =>
    match printf fmt args, lines tr with
    | some l, some ls => some (l :: ls)
    | _, _ => none
  | _ :: tr => lines tr

/-- The text a format writes when it is given exactly the arguments it
reads: `none` when it reads fewer or more, or has undefined behaviour. -/
def field (fmt : String) (args : List Val) : Option String :=
  match vprintf none fmt.toList args with
  | some (out, []) => some (String.mk out)
  | _ => none

/-- The arguments the conversions of one format piece read, given the label
`s` the table holds for the level. -/
def pieceArgs (env : Env) (s : String) (va : List Val) : FmtPiece → List Val
  | .level_fmt => [Val.str s]
  | .timestamp_fmt => [Val.uint (env.hrt_absolute_time % 2 ^ 64)]
  | .thread_fmt => [Val.uint (env.pthread_self % 2 ^ 32)]
  | .FMT => va
  | .file_and_line_fmt => [Val.str env.__FILE__, Val.int env.__LINE__]
  | .end_fmt => []

/-- The arguments a sequence of format pieces reads, in order. -/
def piecesArgs (env : Env) (s : String) (va : List Val) : List FmtPiece → List Val
  | [] => []
  | p :: ps => pieceArgs env s va p ++ piecesArgs env s va ps

/-- The text of a sequence of format pieces, each written with its own
arguments. -/
def renderPieces (env : Env) (s FMT : String) (va : List Val) :
    List FmtPiece → Option String
  | [] => some ""
  | p :: ps =>
    match field (p.text FMT) (pieceArgs env s va p), renderPieces env s FMT va ps with
    | some a, some b => some (a ++ b)
    | _, _ => none

/-- The level constant a call-site form passes under a profile. -/
def levelOf (P : Profile) (c : Call) : Int := (c.macroOf P).level

/-- The call reaches `printf`: it is compiled in and passes the guard of
`__px4__log_startline`. -/
def emits (P : Profile) (env : Env) (c : Call) : Bool :=
  active P c && decide (levelOf P c ≤ env.__px4_log_level_current)

/-- The format of the call's template contains the piece `p`. -/
def hasField (P : Profile) (c : Call) (p : FmtPiece) : Bool :=
  match templateOf P c with
  | some T => decide (p ∈ T.fmt)
  | none => false

/-- The same environment with another value returned by the clock. -/
def Env.withClock (env : Env) (clk : Nat) : Env :=
  { env with hrt_absolute_time := clk }

/-- The severity levels of the spec's data model. -/
inductive Level where
  | ALWAYS
  | PANIC
  | ERROR
  | WARN
  | DEBUG
  deriving DecidableEq

/-- The rank of a severity level as the spec states it. -/
def specRank : Level → Int
  | .ALWAYS => 0
  | .PANIC => 1
  | .ERROR => 2
  | .WARN => 3
  | .DEBUG => 4

/-- The severity a call-site form stands for in the spec (`LOG` and `INFO`
are the two `ALWAYS` forms). -/
def Call.severity : Call → Level
  | .LOG => .ALWAYS
  | .INFO => .ALWAYS
  | .PANIC => .PANIC
  | .ERR => .ERROR
  | .WARN => .WARN
  | .DEBUG => .DEBUG

/-- Modelled from the spec: the contents of the table `__px4_log_level_str`,
which the header only declares; used in concrete runs. -/
def labels : Fin 5 → String
  | 0 => "ALWAYS"
  | 1 => "PANIC"
  | 2 => "ERROR"
  | 3 => "WARN"
  | 4 => "DEBUG"

/-- A concrete environment: threshold `t`, clock value `clk`, thread `tid`,
call site `X:42`. -/
def envAt (t : Int) (clk tid : Nat) : Env :=
  ⟨labels, t, clk, tid, "X", 42⟩

/-- The three counters of a run: sink, clock and thread identity calls. -/
def counts (tr : List Event) : Nat × Nat × Nat :=
  (sinkCalls tr, clockCalls tr, threadCalls tr)

/-- The metadata pieces of a format: all but the user format and the end of
line. -/
def metadata (T : Template) : List FmtPiece :=
  T.fmt.filter fun p => decide (p ≠ .FMT ∧ p ≠ .end_fmt)

/-- The lines of the call when the clock returns `clk`. -/
def linesAt (P : Profile) (env : Env) (c : Call) (FMT : String) (va : List Val)
    (clk : Nat) : Option (List String) :=
  (run P (env.withClock clk) c FMT va).bind lines

/-- The seven output templates of the header, in the order it defines
them. -/
def outputTemplates : List Template :=
  [__px4_log, __px4_log_timestamp, __px4_log_timestamp_thread, __px4_log_file_and_line,
    __px4_log_timestamp_file_and_line, __px4_log_thread_file_and_line,
    __px4_log_timestamp_thread_file_and_line]

/-- The canonical field order as the spec states it: label, timestamp,
thread-tag, user-format, file-and-line, newline. -/
def specFieldOrder : List FmtPiece :=
  [.level_fmt, .timestamp_fmt, .thread_fmt, .FMT, .file_and_line_fmt, .end_fmt]

/-- The argument piece that supplies what a format piece reads: the macro
`__px4__log_X_arg` for `__px4__log_X_fmt`, `##__VA_ARGS__` for `FMT`, and
none for the end of line. -/
def argOf : FmtPiece → Option ArgPiece
  | .level_fmt => some .level_arg
  | .timestamp_fmt => some .timestamp_arg
  | .thread_fmt => some .thread_arg
  | .FMT => some .VA_ARGS
  | .file_and_line_fmt => some .file_and_line_arg
  | .end_fmt => none

/-- The same environment with another value of `__px4_log_level_current`. -/
def Env.withThreshold (env : Env) (t : Int) : Env :=
  { env with __px4_log_level_current := t }

/-- The same environment with another value returned by `pthread_self()`. -/
def Env.withThread (env : Env) (tid : Nat) : Env :=
  { env with pthread_self := tid }

/-- The value of one hexadecimal digit character. -/
def hexDigitValue (c : Char) : Nat :=
  if c.isDigit then c.toNat - 48
  else if 'A'.toNat ≤ c.toNat ∧ c.toNat ≤ 'F'.toNat then c.toNat - 55
  else if 'a'.toNat ≤ c.toNat ∧ c.toNat ≤ 'f'.toNat then c.toNat - 87
  else 0

/-- The number a sequence of hexadecimal digits denotes, most significant
digit first. -/
def hexValue (cs : List Char) : Nat :=
  cs.foldl (fun acc c => 16 * acc + hexDigitValue c) 0

/-- The thread field as `printf` writes it for the identifier `tid`: the cast
to `unsigned int`, `0X` in front unless the cast value is zero, the
upper-case digits, a space. -/
def threadTag (tid : Nat) : String :=
  String.mk ((if tid % 2 ^ 32 = 0 then [] else ['0', 'X']) ++ hexUpper (tid % 2 ^ 32) ++ [' '])

/-- The thread tag as the spec states it: the identifier in hexadecimal
after a `0x`-style marker, followed by one space. -/
def specThreadTag (tid : Nat) : String :=
  String.mk (['0', 'X'] ++ hexUpper tid ++ [' '])

/-! ## Lemmas on the formatting loop -/

theorem emit_some_iff (out : List Char) (r : Option (List Char × List Val))
    (o : List Char) (rest : List Val) :
    emit out r = some (o, rest) ↔ ∃ o', r = some (o', rest) ∧ o = out ++ o' := by
  cases r with
  | none => simp [emit]
  | some p =>
    obtain ⟨a, b⟩ := p
    simp only [emit, Option.map_some', Option.some.injEq, Prod.mk.injEq]
    constructor
    · rintro ⟨h1, h2⟩
      exact ⟨a, ⟨rfl, h2⟩, h1.symm⟩
    · rintro ⟨o', ⟨h1, h2⟩, h3⟩
      subst h1 h2 h3
      exact ⟨rfl, rfl⟩

theorem emit_emit (x y : List Char) (r : Option (List Char × List Val)) :
    emit x (emit y r) = emit (x ++ y) r := by
  cases r <;> simp [emit]

theorem emit_nil (r : Option (List Char × List Val)) : emit [] r = r := by
  cases r <;> simp [emit]

/-- Arguments beyond those a format reads do not change what it writes. -/
theorem vprintf_append_args (b : List Val) :
    ∀ (f : List Char) (m : Option Conv) (a : List Val) (o : List Char) (r : List Val),
      vprintf m f a = some (o, r) → vprintf m f (a ++ b) = some (o, r ++ b) := by
  intro f
  induction f with
  | nil =>
    intro m a o r h
    cases m with
    | none =>
      simp only [vprintf, Option.some.injEq, Prod.mk.injEq] at h
      obtain ⟨h1, h2⟩ := h
      subst h1 h2
      simp [vprintf]
    | some k => simp [vprintf] at h
  | cons c cs ih =>
    intro m a o r h
    cases m with
    | none =>
      simp only [vprintf] at h ⊢
      split at h
      · rename_i hc
        simp only [hc, if_true]
        exact ih _ _ _ _ h
      · rename_i hc
        simp only [hc, if_false]
        obtain ⟨o', h1, h2⟩ := (emit_some_iff _ _ _ _).1 h
        rw [ih _ _ _ _ h1, h2]
        simp [emit]
    | some k =>
      simp only [vprintf] at h ⊢
      cases hd : directive k c with
      | more k' =>
        simp only [hd] at h ⊢
        exact ih _ _ _ _ h
      | percent =>
        simp only [hd] at h ⊢
        obtain ⟨o', h1, h2⟩ := (emit_some_iff _ _ _ _).1 h
        rw [ih _ _ _ _ h1, h2]
        simp [emit]
      | bad => simp [hd] at h
      | convert =>
        simp only [hd] at h ⊢
        cases a with
        | nil => simp at h
        | cons x rest =>
          simp only [List.cons_append] at h ⊢
          cases hv : convert k c x with
          | none => simp [hv] at h
          | some out =>
            simp only [hv] at h ⊢
            obtain ⟨o', h1, h2⟩ := (emit_some_iff _ _ _ _).1 h
            rw [ih _ _ _ _ h1, h2]
            simp [emit]

/-- A format that has been read to its end continues with what follows it. -/
theorem vprintf_append_fmt (f2 : List Char) :
    ∀ (f1 : List Char) (m : Option Conv) (a : List Val) (o : List Char) (r : List Val),
      vprintf m f1 a = some (o, r) →
      vprintf m (f1 ++ f2) a = emit o (vprintf none f2 r) := by
  intro f1
  induction f1 with
  | nil =>
    intro m a o r h
    cases m with
    | none =>
      simp only [vprintf, Option.some.injEq, Prod.mk.injEq] at h
      obtain ⟨h1, h2⟩ := h
      subst h1 h2
      simp [emit_nil]
    | some k => simp [vprintf] at h
  | cons c cs ih =>
    intro m a o r h
    cases m with
    | none =>
      simp only [vprintf, List.cons_append] at h ⊢
      split at h
      · rename_i hc
        simp only [hc, if_true]
        exact ih _ _ _ _ h
      · rename_i hc
        simp only [hc, if_false]
        obtain ⟨o', h1, h2⟩ := (emit_some_iff _ _ _ _).1 h
        rw [h2, ← emit_emit]
        exact congrArg _ (ih _ _ _ _ h1)
    | some k =>
      simp only [vprintf, List.cons_append] at h ⊢
      cases hd : directive k c with
      | more k' =>
        simp only [hd] at h ⊢
        exact ih _ _ _ _ h
      | percent =>
        simp only [hd] at h ⊢
        obtain ⟨o', h1, h2⟩ := (emit_some_iff _ _ _ _).1 h
        rw [h2, ← emit_emit]
        exact congrArg _ (ih _ _ _ _ h1)
      | bad => simp [hd] at h
      | convert =>
        simp only [hd] at h ⊢
        cases a with
        | nil => simp at h
        | cons x rest =>
          simp only at h ⊢
          cases hv : convert k c x with
          | none => simp [hv] at h
          | some out =>
            simp only [hv] at h ⊢
            obtain ⟨o', h1, h2⟩ := (emit_some_iff _ _ _ _).1 h
            rw [h2, ← emit_emit]
            exact congrArg _ (ih _ _ _ _ h1)

/-- Two formats, each with exactly its own arguments, written one after
the other. -/
theorem vprintf_append (f1 f2 : List Char) (a1 a2 : List Val) (o1 o2 : List Char)
    (r : List Val) (h1 : vprintf none f1 a1 = some (o1, []))
    (h2 : vprintf none f2 a2 = some (o2, r)) :
    vprintf none (f1 ++ f2) (a1 ++ a2) = some (o1 ++ o2, r) := by
  have h := vprintf_append_args a2 f1 none a1 o1 [] h1
  rw [vprintf_append_fmt f2 f1 none (a1 ++ a2) o1 ([] ++ a2) h, List.nil_append, h2]
  rfl

/-! ## Runs of the code level macros -/

/-- Every level constant a code level macro passes indexes the table. -/
theorem level_str_levelOf (P : Profile) (c : Call) (env : Env) :
    ∃ s, level_str env (levelOf P c) = some s := by
  cases P <;> cases c <;>
    simp [levelOf, Call.macroOf, PX4_LOG, PX4_INFO, PX4_PANIC, PX4_ERR, PX4_WARN, PX4_DEBUG,
      level_str, _PX4_LOG_LEVEL_ALWAYS, _PX4_LOG_LEVEL_PANIC, _PX4_LOG_LEVEL_ERROR,
      _PX4_LOG_LEVEL_WARN, _PX4_LOG_LEVEL_DEBUG]

/-- The counters of every run, in closed form. -/
theorem run_counts (P : Profile) (env : Env) (c : Call) (FMT : String) (va : List Val) :
    (run P env c FMT va).map counts =
      some (if emits P env c = true then
        (1, if hasField P c .timestamp_fmt = true then 1 else 0,
          if hasField P c .thread_fmt = true then 1 else 0)
      else (0, 0, 0)) := by
  by_cases ht : levelOf P c ≤ env.__px4_log_level_current
  · revert ht
    cases P <;> cases c <;> intro ht <;>
      simp only [levelOf, Call.macroOf, PX4_LOG, PX4_INFO, PX4_PANIC, PX4_ERR, PX4_WARN,
        PX4_DEBUG, _PX4_LOG_LEVEL_ALWAYS, _PX4_LOG_LEVEL_PANIC, _PX4_LOG_LEVEL_ERROR,
        _PX4_LOG_LEVEL_WARN, _PX4_LOG_LEVEL_DEBUG] at ht <;>
      simp [run, emits, active, hasField, templateOf, levelOf, Call.macroOf, PX4_LOG, PX4_INFO,
        PX4_PANIC, PX4_ERR, PX4_WARN, PX4_DEBUG, CodeMacro.exec, Template.exec, __px4__log_startline,
        do_nothing,
        __px4_log_omit, __px4_log, __px4_log_timestamp, __px4_log_timestamp_thread,
        __px4_log_file_and_line, __px4_log_timestamp_file_and_line,
        __px4_log_timestamp_thread_file_and_line, evalArgs, evalArg, level_str,
        _PX4_LOG_LEVEL_ALWAYS, _PX4_LOG_LEVEL_PANIC, _PX4_LOG_LEVEL_ERROR,
        _PX4_LOG_LEVEL_WARN, _PX4_LOG_LEVEL_DEBUG, counts, sinkCalls, clockCalls, threadCalls,
        Event.isSink, ht]
  · revert ht
    cases P <;> cases c <;> intro ht <;>
      simp only [levelOf, Call.macroOf, PX4_LOG, PX4_INFO, PX4_PANIC, PX4_ERR, PX4_WARN,
        PX4_DEBUG, _PX4_LOG_LEVEL_ALWAYS, _PX4_LOG_LEVEL_PANIC, _PX4_LOG_LEVEL_ERROR,
        _PX4_LOG_LEVEL_WARN, _PX4_LOG_LEVEL_DEBUG] at ht <;>
      simp [run, emits, active, hasField, templateOf, levelOf, Call.macroOf, PX4_LOG, PX4_INFO,
        PX4_PANIC, PX4_ERR, PX4_WARN, PX4_DEBUG, CodeMacro.exec, Template.exec, __px4__log_startline,
        do_nothing,
        __px4_log_omit, __px4_log, __px4_log_timestamp, __px4_log_timestamp_thread,
        __px4_log_file_and_line, __px4_log_timestamp_file_and_line,
        __px4_log_timestamp_thread_file_and_line, evalArgs, evalArg, level_str,
        _PX4_LOG_LEVEL_ALWAYS, _PX4_LOG_LEVEL_PANIC, _PX4_LOG_LEVEL_ERROR,
        _PX4_LOG_LEVEL_WARN, _PX4_LOG_LEVEL_DEBUG, counts, sinkCalls, clockCalls, threadCalls,
        Event.isSink, ht]

theorem field_eq_some (fmt : String) (args : List Val) (a : String)
    (h : field fmt args = some a) : vprintf none fmt.toList args = some (a.toList, []) := by
  unfold field at h
  split at h
  · rename_i out hv
    simp only [Option.some.injEq] at h
    subst h
    exact hv
  · simp at h

/-- A sequence of format pieces, each written with its own arguments, is what
`printf` writes for the concatenated format and the concatenated arguments. -/
theorem vprintf_renderPieces (env : Env) (s FMT : String) (va : List Val) :
    ∀ (ps : List FmtPiece) (line : String),
      renderPieces env s FMT va ps = some line →
      vprintf none (formatOf FMT ps).toList
        (piecesArgs env s va ps) = some (line.toList, []) := by
  intro ps
  induction ps with
  | nil =>
    intro line h
    simp only [renderPieces, Option.some.injEq] at h
    subst h
    simp [vprintf, piecesArgs, formatOf]
  | cons p ps ih =>
    intro line h
    simp only [renderPieces] at h
    cases hf : field (p.text FMT) (pieceArgs env s va p) with
    | none => simp [hf] at h
    | some a =>
      cases hr : renderPieces env s FMT va ps with
      | none => simp [hf, hr] at h
      | some b =>
        simp only [hf, hr, Option.some.injEq] at h
        subst h
        have h1 := field_eq_some _ _ _ hf
        have h2 := ih b hr
        have h3 := vprintf_append _ _ _ _ _ _ _ h1 h2
        simpa [piecesArgs, formatOf, String.toList, String.data_append] using h3

/-- The label field: the label left-justified in five columns and a space. -/
theorem field_level_fmt (s : String) :
    field __px4__log_level_fmt [Val.str s] =
      some (String.mk (pad true 5 s.toList ++ [' '])) := by
  simp [field, __px4__log_level_fmt, vprintf, directive, Conv.init, convert, convBody, emit,
    Char.isDigit]

/-- The timestamp field: the clock value in decimal, left-justified in ten
columns, and a space. -/
theorem field_timestamp_fmt (n : Nat) :
    field __px4__log_timestamp_fmt [Val.uint n] =
      some (String.mk (pad true 10 (decimal n) ++ [' '])) := by
  simp [field, __px4__log_timestamp_fmt, PRIu64, vprintf, directive, Conv.init, convert,
    convBody, emit, Char.isDigit, Val.asUnsigned]

/-- The thread field: the identifier in upper-case hexadecimal, with `0X` in
front when it is not zero, and a space. -/
theorem field_thread_fmt (n : Nat) :
    field __px4__log_thread_fmt [Val.uint n] =
      some (String.mk (pad false 0
        (if n ≠ 0 then '0' :: 'X' :: hexUpper n else hexUpper n) ++ [' '])) := by
  simp [field, __px4__log_thread_fmt, vprintf, directive, Conv.init, convert,
    convBody, emit, Char.isDigit, Val.asUnsigned]

/-- The file-and-line field. -/
theorem field_file_and_line_fmt (f : String) (l : Nat) :
    field __px4__log_file_and_line_fmt [Val.str f, Val.int l] =
      some (String.mk (" (file ".toList ++ pad false 0 f.toList ++ " line ".toList ++
        pad false 0 (decimal l) ++ [')'])) := by
  simp [field, __px4__log_file_and_line_fmt, vprintf, directive, Conv.init, convert,
    convBody, emit, Char.isDigit, Val.asUnsigned]

/-- The end of the line. -/
theorem field_end_fmt : field __px4__log_end_fmt [] = some "\n" := by
  decide

theorem lines_append_printf (evs : List Event) (fmt : String) (args : List Val)
    (h : ∀ e ∈ evs, e.isSink = false) :
    lines (evs ++ [Event.printf fmt args]) = (printf fmt args).map fun l => [l] := by
  induction evs with
  | nil =>
    cases hp : printf fmt args <;> simp [lines, hp]
  | cons e es ih =>
    have he := h e (List.mem_cons_self _ _)
    have hes : ∀ x ∈ es, x.isSink = false := fun x hx => h x (List.mem_cons_of_mem _ hx)
    cases e with
    | printf f a => simp [Event.isSink] at he
    | hrt_absolute_time => simpa [lines] using ih hes
    | pthread_self => simpa [lines] using ih hes

/-- In each of the seven templates the argument pieces supply, in order, the
arguments the format pieces read, and only the clock and thread pieces make
calls. -/
theorem evalArgs_aligned (T : Template)
    (hT : T ∈ [__px4_log, __px4_log_timestamp, __px4_log_timestamp_thread,
      __px4_log_file_and_line, __px4_log_timestamp_file_and_line,
      __px4_log_thread_file_and_line, __px4_log_timestamp_thread_file_and_line])
    (env : Env) (level : Int) (s : String) (va : List Val)
    (hs : level_str env level = some s) :
    ∃ evs, evalArgs env level va T.arg = some (evs, piecesArgs env s va T.fmt) ∧
      ∀ e ∈ evs, e.isSink = false := by
  simp only [List.mem_cons, List.mem_singleton, List.not_mem_nil, or_false] at hT
  rcases hT with h | h | h | h | h | h | h <;> subst h <;>
    simp [__px4_log, __px4_log_timestamp, __px4_log_timestamp_thread,
      __px4_log_file_and_line, __px4_log_timestamp_file_and_line,
      __px4_log_thread_file_and_line, __px4_log_timestamp_thread_file_and_line,
      evalArgs, evalArg, hs, piecesArgs, pieceArgs, Event.isSink]

/-- The line a template writes, from the texts of its pieces. -/
theorem exec_lines (T : Template)
    (hT : T ∈ [__px4_log, __px4_log_timestamp, __px4_log_timestamp_thread,
      __px4_log_file_and_line, __px4_log_timestamp_file_and_line,
      __px4_log_thread_file_and_line, __px4_log_timestamp_thread_file_and_line])
    (env : Env) (level : Int) (s FMT : String) (va : List Val) (line : String)
    (hs : level_str env level = some s)
    (hr : renderPieces env s FMT va T.fmt = some line) :
    (T.exec env level FMT va).bind lines =
      some (if level ≤ env.__px4_log_level_current then [line] else []) := by
  obtain ⟨evs, he, hsink⟩ := evalArgs_aligned T hT env level s va hs
  have hv := vprintf_renderPieces env s FMT va T.fmt line hr
  unfold Template.exec __px4__log_startline
  by_cases ht : level ≤ env.__px4_log_level_current
  · simp only [ht, if_true, he, Option.map_some', Option.some_bind]
    rw [lines_append_printf _ _ _ hsink]
    simp only [printf, Template.format, hv, Option.map_some']
    rfl
  · simp [ht, lines]

/-! ## Filtering -/

/-- C1: for every profile, every call-site form that is active under it and
every integer threshold, the level constant passed is the rank of the call's
severity (ALWAYS 0, PANIC 1, ERROR 2, WARN 3, DEBUG 4) and the call makes
exactly one `printf` call when that rank is at most the threshold and none
when it is above. -/
theorem C1_runtime_filtering (P : Profile) (c : Call) (env : Env) (FMT : String)
    (va : List Val) (hact : active P c = true) :
    levelOf P c = specRank c.severity ∧
    (run P env c FMT va).map sinkCalls =
      some (if specRank c.severity ≤ env.__px4_log_level_current then 1 else 0) := by
  have hl : levelOf P c = specRank c.severity := by
    cases P <;> cases c <;> rfl
  refine ⟨hl, ?_⟩
  have h := congrArg (Option.map fun t : Nat × Nat × Nat => t.1) (run_counts P env c FMT va)
  rw [Option.map_map] at h
  have hf : ((fun t : Nat × Nat × Nat => t.1) ∘ counts) = sinkCalls := rfl
  rw [hf] at h
  rw [h]
  simp only [emits, hact, Bool.true_and, decide_eq_true_eq, hl, Option.map_some']
  split <;> rfl

/-- C1 at two concrete thresholds: Trace DEBUG prints once at threshold 4
and not at all at threshold 3. -/
theorem C1_runtime_filtering_witness :
    active .Trace .DEBUG = true ∧
    (run .Trace (envAt 4 0 0) .DEBUG "x" []).map sinkCalls = some 1 ∧
    (run .Trace (envAt 3 0 0) .DEBUG "x" []).map sinkCalls = some 0 :=
  ⟨by decide,
    (C1_runtime_filtering .Trace .DEBUG (envAt 4 0 0) "x" [] (by decide)).2,
    (C1_runtime_filtering .Trace .DEBUG (envAt 3 0 0) "x" [] (by decide)).2⟩

/-- C2: the compiled-out (profile, severity) pairs are exactly
(Release, WARN), (Release, DEBUG) and (Default, DEBUG), every other pair is
active, and under every environment (so for every threshold) each of the
three makes no sink call, no clock call and no thread identity call. -/
theorem C2_compile_time_omission (env : Env) (FMT : String) (va : List Val) :
    (∀ P c, active P c = false ↔
      (P, c.severity) ∈ [(Profile.Release, Level.WARN), (Profile.Release, Level.DEBUG),
        (Profile.Default, Level.DEBUG)]) ∧
    (run .Release env .WARN FMT va).map counts = some (0, 0, 0) ∧
    (run .Release env .DEBUG FMT va).map counts = some (0, 0, 0) ∧
    (run .Default env .DEBUG FMT va).map counts = some (0, 0, 0) := by
  refine ⟨?_, ?_, ?_, ?_⟩
  · intro P c
    cases P <;> cases c <;> decide
  · rw [run_counts]; rfl
  · rw [run_counts]; rfl
  · rw [run_counts]; rfl

/-- C3, evaluated where it fails: with the threshold at -1 the guard
`0 <= __px4_log_level_current` is false, and `PX4_LOG` and `PX4_INFO` make
no sink call in any profile; with the threshold at 0 the line is written. -/
theorem C3_always_filtered_below_zero :
    (run .Trace (envAt (-1) 0 0) .LOG "hello" []).map sinkCalls = some 0 ∧
    (run .Debug (envAt (-1) 0 0) .LOG "hello" []).map sinkCalls = some 0 ∧
    (run .Release (envAt (-1) 0 0) .LOG "hello" []).map sinkCalls = some 0 ∧
    (run .Default (envAt (-1) 0 0) .LOG "hello" []).map sinkCalls = some 0 ∧
    (run .Trace (envAt (-1) 0 0) .INFO "hello" []).map sinkCalls = some 0 ∧
    (run .Debug (envAt (-1) 0 0) .INFO "hello" []).map sinkCalls = some 0 ∧
    (run .Release (envAt (-1) 0 0) .INFO "hello" []).map sinkCalls = some 0 ∧
    (run .Default (envAt (-1) 0 0) .INFO "hello" []).map sinkCalls = some 0 ∧
    (run .Default (envAt 0 0 0) .INFO "hello" []).bind lines = some ["ALWAYS hello\n"] := by
  decide

/-! ## Templates -/

/-- C4, evaluated where it fails: the Default and Release PANIC / ERROR /
WARN calls use `__px4_log_file_and_line`, whose body holds the timestamp
piece and reads the clock; the Scenario A call is sent to `printf` with the
timestamp conversion and writes a line with the timestamp field in it. -/
theorem C4_file_and_line_has_timestamp :
    hasField .Default .PANIC .timestamp_fmt = true ∧
    hasField .Default .ERR .timestamp_fmt = true ∧
    hasField .Default .WARN .timestamp_fmt = true ∧
    hasField .Release .PANIC .timestamp_fmt = true ∧
    hasField .Release .ERR .timestamp_fmt = true ∧
    run .Default (envAt 3 12345 7) .WARN "disk at %d%%" [.int 87] =
      some [Event.hrt_absolute_time,
        Event.printf "%-5s %-10lu disk at %d%% (file %s line %u)\n"
          [.str "WARN", .uint 12345, .int 87, .str "X", .int 42]] ∧
    (run .Default (envAt 3 12345 7) .WARN "disk at %d%%" [.int 87]).bind lines =
      some ["WARN  12345      disk at 87% (file X line 42)\n"] := by
  decide

/-- The line of a call that reaches `printf`, from the texts of the pieces
of its template. -/
theorem run_lines (P : Profile) (c : Call) (env : Env) (FMT : String) (va : List Val)
    (T : Template) (s line : String)
    (hT : templateOf P c = some T)
    (hs : level_str env (levelOf P c) = some s)
    (hr : renderPieces env s FMT va T.fmt = some line)
    (hemit : emits P env c = true) :
    (run P env c FMT va).bind lines = some [line] := by
  have hmem : T ∈ [__px4_log, __px4_log_timestamp, __px4_log_timestamp_thread,
      __px4_log_file_and_line, __px4_log_timestamp_file_and_line,
      __px4_log_thread_file_and_line, __px4_log_timestamp_thread_file_and_line] := by
    cases P <;> cases c <;>
      simp [templateOf, Call.macroOf, PX4_LOG, PX4_INFO, PX4_PANIC, PX4_ERR, PX4_WARN,
        PX4_DEBUG, __px4_log_omit] at hT <;>
      subst hT <;> simp
  have hrun : run P env c FMT va = T.exec env (levelOf P c) FMT va := by
    cases P <;> cases c <;>
      simp [templateOf, Call.macroOf, PX4_LOG, PX4_INFO, PX4_PANIC, PX4_ERR, PX4_WARN,
        PX4_DEBUG, __px4_log_omit] at hT <;>
      subst hT <;> rfl
  have hle : levelOf P c ≤ env.__px4_log_level_current := by
    simp only [emits, Bool.and_eq_true, decide_eq_true_eq] at hemit
    exact hemit.2
  rw [hrun, exec_lines T hmem env _ s FMT va line hs hr, if_pos hle]

/-- C5: under the Trace profile, every PANIC, ERROR or WARN call that reaches
`printf` uses the format pieces label, timestamp, thread, user format,
file-and-line, end of line, and writes one line: the label field, the
timestamp field, the thread field, the user message, the file-and-line field
and a newline, in this order. -/
theorem C5_trace_template (c : Call) (env : Env) (FMT : String) (va : List Val)
    (msg : String) (hc : c = .PANIC ∨ c = .ERR ∨ c = .WARN)
    (hemit : emits .Trace env c = true) (hmsg : field FMT va = some msg) :
    (templateOf .Trace c).map Template.fmt =
      some [.level_fmt, .timestamp_fmt, .thread_fmt, .FMT, .file_and_line_fmt, .end_fmt] ∧
    ∃ s lbl ts th fl,
      level_str env (levelOf .Trace c) = some s ∧
      field __px4__log_level_fmt [Val.str s] = some lbl ∧
      field __px4__log_timestamp_fmt [Val.uint (env.hrt_absolute_time % 2 ^ 64)] = some ts ∧
      field __px4__log_thread_fmt [Val.uint (env.pthread_self % 2 ^ 32)] = some th ∧
      field __px4__log_file_and_line_fmt [Val.str env.__FILE__, Val.int env.__LINE__]
        = some fl ∧
      (run .Trace env c FMT va).bind lines = some [lbl ++ ts ++ th ++ msg ++ fl ++ "\n"] := by
  obtain ⟨s, hs⟩ := level_str_levelOf .Trace c env
  have h1 := field_level_fmt s
  have h2 := field_timestamp_fmt (env.hrt_absolute_time % 2 ^ 64)
  have h3 := field_thread_fmt (env.pthread_self % 2 ^ 32)
  have h5 := field_file_and_line_fmt env.__FILE__ env.__LINE__
  have hT : templateOf .Trace c = some __px4_log_timestamp_thread_file_and_line := by
    rcases hc with h | h | h <;> subst h <;> rfl
  refine ⟨by rw [hT]; rfl, s, _, _, _, _, hs, h1, h2, h3, h5, ?_⟩
  refine run_lines .Trace c env FMT va _ s _ hT hs ?_ hemit
  simp only [__px4_log_timestamp_thread_file_and_line, renderPieces, pieceArgs,
    FmtPiece.text, h1, h2, h3, hmsg, h5, field_end_fmt, String.append_assoc,
    String.append_empty]

/-- C5 on Scenario C: Trace, threshold 3, clock 12345, thread 0xBEEF,
`PX4_ERR("fail %s", "io")` at `X:42`. -/
theorem C5_trace_template_witness :
    emits .Trace (envAt 3 12345 48879) .ERR = true ∧
    field "fail %s" [Val.str "io"] = some "fail io" ∧
    (run .Trace (envAt 3 12345 48879) .ERR "fail %s" [Val.str "io"]).bind lines =
      some ["ERROR 12345      0XBEEF fail io (file X line 42)\n"] := by
  refine ⟨by decide, by decide, ?_⟩
  obtain ⟨_, s, lbl, ts, th, fl, hs, h1, h2, h3, h5, hrun⟩ :=
    C5_trace_template .ERR (envAt 3 12345 48879) "fail %s" [Val.str "io"] "fail io"
      (Or.inr (Or.inl rfl)) (by decide) (by decide)
  have es : some s = some "ERROR" := hs.symm.trans (by decide)
  cases es
  have e1 : some lbl = some "ERROR " := h1.symm.trans (by decide)
  have e2 : some ts = some "12345      " := h2.symm.trans (by decide)
  have e3 : some th = some "0XBEEF " := h3.symm.trans (by decide)
  have e5 : some fl = some " (file X line 42)" := h5.symm.trans (by decide)
  cases e1; cases e2; cases e3; cases e5
  exact hrun

/-- C6: under the Debug profile, every PANIC, ERROR or WARN call that reaches
`printf` uses the format pieces label, timestamp, user format, file-and-line,
end of line (no thread piece), and writes one line: the label field, the
timestamp field, the user message, the file-and-line field and a newline. -/
theorem C6_debug_template (c : Call) (env : Env) (FMT : String) (va : List Val)
    (msg : String) (hc : c = .PANIC ∨ c = .ERR ∨ c = .WARN)
    (hemit : emits .Debug env c = true) (hmsg : field FMT va = some msg) :
    (templateOf .Debug c).map Template.fmt =
      some [.level_fmt, .timestamp_fmt, .FMT, .file_and_line_fmt, .end_fmt] ∧
    hasField .Debug c .thread_fmt = false ∧
    ∃ s lbl ts fl,
      level_str env (levelOf .Debug c) = some s ∧
      field __px4__log_level_fmt [Val.str s] = some lbl ∧
      field __px4__log_timestamp_fmt [Val.uint (env.hrt_absolute_time % 2 ^ 64)] = some ts ∧
      field __px4__log_file_and_line_fmt [Val.str env.__FILE__, Val.int env.__LINE__]
        = some fl ∧
      (run .Debug env c FMT va).bind lines = some [lbl ++ ts ++ msg ++ fl ++ "\n"] := by
  obtain ⟨s, hs⟩ := level_str_levelOf .Debug c env
  have h1 := field_level_fmt s
  have h2 := field_timestamp_fmt (env.hrt_absolute_time % 2 ^ 64)
  have h5 := field_file_and_line_fmt env.__FILE__ env.__LINE__
  have hT : templateOf .Debug c = some __px4_log_timestamp_file_and_line := by
    rcases hc with h | h | h <;> subst h <;> rfl
  refine ⟨by rw [hT]; rfl, ?_, s, _, _, _, hs, h1, h2, h5, ?_⟩
  · rcases hc with h | h | h <;> subst h <;> decide
  refine run_lines .Debug c env FMT va _ s _ hT hs ?_ hemit
  simp only [__px4_log_timestamp_file_and_line, renderPieces, pieceArgs,
    FmtPiece.text, h1, h2, hmsg, h5, field_end_fmt, String.append_assoc,
    String.append_empty]

/-- C6 on a concrete call: Debug, threshold 3, clock 12345,
`PX4_WARN("val is %d", 7)` at `X:42`. -/
theorem C6_debug_template_witness :
    emits .Debug (envAt 3 12345 7) .WARN = true ∧
    field "val is %d" [Val.int 7] = some "val is 7" ∧
    (run .Debug (envAt 3 12345 7) .WARN "val is %d" [Val.int 7]).bind lines =
      some ["WARN  12345      val is 7 (file X line 42)\n"] := by
  refine ⟨by decide, by decide, ?_⟩
  obtain ⟨_, _, s, lbl, ts, fl, hs, h1, h2, h5, hrun⟩ :=
    C6_debug_template .WARN (envAt 3 12345 7) "val is %d" [Val.int 7] "val is 7"
      (Or.inr (Or.inr rfl)) (by decide) (by decide)
  have es : some s = some "WARN" := hs.symm.trans (by decide)
  cases es
  have e1 : some lbl = some "WARN  " := h1.symm.trans (by decide)
  have e2 : some ts = some "12345      " := h2.symm.trans (by decide)
  have e5 : some fl = some " (file X line 42)" := h5.symm.trans (by decide)
  cases e1; cases e2; cases e5
  exact hrun

/-- C7 as stated fails: the metadata pieces of the DEBUG templates are not
"timestamp, thread" (Trace) and "timestamp" (Debug); both start with the
level label, and the lines written start with the label field. -/
theorem C7_debug_level_has_label :
    ¬ ((templateOf .Trace .DEBUG).map metadata = some [.timestamp_fmt, .thread_fmt]) ∧
    ¬ ((templateOf .Debug .DEBUG).map metadata = some [.timestamp_fmt]) ∧
    hasField .Trace .DEBUG .level_fmt = true ∧
    hasField .Debug .DEBUG .level_fmt = true ∧
    (run .Trace (envAt 4 12345 7) .DEBUG "x=%d" [Val.int 5]).bind lines =
      some ["DEBUG 12345      0X7 x=5\n"] ∧
    (run .Debug (envAt 4 12345 7) .DEBUG "x=%d" [Val.int 5]).bind lines =
      some ["DEBUG 12345      x=5\n"] := by
  decide

/-- C7, amended: for every DEBUG call that reaches `printf`, the metadata
pieces are label, timestamp, thread under Trace and label, timestamp under
Debug, neither template has the file-and-line piece, and the line is the
label field, the timestamp field, under Trace the thread field, the user
message and a newline. -/
theorem C7_debug_level_templates (P : Profile) (env : Env) (FMT : String)
    (va : List Val) (msg : String) (hP : P = .Trace ∨ P = .Debug)
    (hemit : emits P env .DEBUG = true) (hmsg : field FMT va = some msg) :
    (templateOf P .DEBUG).map metadata =
      some (if P = .Trace then [.level_fmt, .timestamp_fmt, .thread_fmt]
        else [.level_fmt, .timestamp_fmt]) ∧
    hasField P .DEBUG .file_and_line_fmt = false ∧
    ∃ s lbl ts th,
      level_str env (levelOf P .DEBUG) = some s ∧
      field __px4__log_level_fmt [Val.str s] = some lbl ∧
      field __px4__log_timestamp_fmt [Val.uint (env.hrt_absolute_time % 2 ^ 64)] = some ts ∧
      field __px4__log_thread_fmt [Val.uint (env.pthread_self % 2 ^ 32)] = some th ∧
      (run P env .DEBUG FMT va).bind lines =
        some [lbl ++ ts ++ (if P = .Trace then th else "") ++ msg ++ "\n"] := by
  obtain ⟨s, hs⟩ := level_str_levelOf P .DEBUG env
  have h1 := field_level_fmt s
  have h2 := field_timestamp_fmt (env.hrt_absolute_time % 2 ^ 64)
  have h3 := field_thread_fmt (env.pthread_self % 2 ^ 32)
  rcases hP with h | h <;> subst h
  · refine ⟨by decide, by decide, s, _, _, _, hs, h1, h2, h3, ?_⟩
    refine run_lines .Trace .DEBUG env FMT va __px4_log_timestamp_thread s _ rfl hs ?_ hemit
    simp only [__px4_log_timestamp_thread, renderPieces, pieceArgs, FmtPiece.text, h1, h2, h3,
      hmsg, field_end_fmt, String.append_assoc, String.append_empty, if_true]
  · refine ⟨by decide, by decide, s, _, _, _, hs, h1, h2, h3, ?_⟩
    refine run_lines .Debug .DEBUG env FMT va __px4_log_timestamp s _ rfl hs ?_ hemit
    have hne : ¬ (Profile.Debug = Profile.Trace) := by decide
    simp only [__px4_log_timestamp, renderPieces, pieceArgs, FmtPiece.text, h1, h2,
      hmsg, field_end_fmt, String.append_assoc, String.append_empty, hne, if_false,
      String.empty_append]

/-- C7 (amended) on a concrete call: Trace, threshold 4, clock 12345,
thread 7, `PX4_DEBUG("x=%d", 5)`. -/
theorem C7_debug_level_templates_witness :
    emits .Trace (envAt 4 12345 7) .DEBUG = true ∧
    field "x=%d" [Val.int 5] = some "x=5" ∧
    (templateOf .Trace .DEBUG).map metadata =
      some [.level_fmt, .timestamp_fmt, .thread_fmt] ∧
    (run .Trace (envAt 4 12345 7) .DEBUG "x=%d" [Val.int 5]).bind lines =
      some ["DEBUG 12345      0X7 x=5\n"] := by
  refine ⟨by decide, by decide, ?_⟩
  obtain ⟨hm, _, s, lbl, ts, th, hs, h1, h2, h3, hrun⟩ :=
    C7_debug_level_templates .Trace (envAt 4 12345 7) "x=%d" [Val.int 5] "x=5"
      (Or.inl rfl) (by decide) (by decide)
  have es : some s = some "DEBUG" := hs.symm.trans (by decide)
  cases es
  have e1 : some lbl = some "DEBUG " := h1.symm.trans (by decide)
  have e2 : some ts = some "12345      " := h2.symm.trans (by decide)
  have e3 : some th = some "0X7 " := h3.symm.trans (by decide)
  cases e1; cases e2; cases e3
  exact ⟨hm, hrun⟩

/-- C8: in every profile, a `PX4_LOG` or `PX4_INFO` call that reaches `printf`
uses the format pieces label, user format, end of line (no timestamp, thread
or file-and-line piece), `PX4_LOG` and `PX4_INFO` run alike, and the line is
the label field of table entry 0, the user message and a newline. -/
theorem C8_always_template (P : Profile) (c : Call) (env : Env) (FMT : String)
    (va : List Val) (msg : String) (hc : c = .LOG ∨ c = .INFO)
    (hemit : emits P env c = true) (hmsg : field FMT va = some msg) :
    (templateOf P c).map Template.fmt = some [.level_fmt, .FMT, .end_fmt] ∧
    run P env .LOG FMT va = run P env .INFO FMT va ∧
    ∃ lbl,
      field __px4__log_level_fmt [Val.str (env.__px4_log_level_str 0)] = some lbl ∧
      (run P env c FMT va).bind lines = some [lbl ++ msg ++ "\n"] := by
  have h1 := field_level_fmt (env.__px4_log_level_str 0)
  have hT : templateOf P c = some __px4_log := by
    rcases hc with h | h <;> subst h <;> cases P <;> rfl
  have hs : level_str env (levelOf P c) = some (env.__px4_log_level_str 0) := by
    rcases hc with h | h <;> subst h <;> cases P <;> rfl
  refine ⟨by rw [hT]; rfl, by cases P <;> rfl, _, h1, ?_⟩
  refine run_lines P c env FMT va _ _ _ hT hs ?_ hemit
  simp only [__px4_log, renderPieces, pieceArgs, FmtPiece.text, h1, hmsg, field_end_fmt,
    String.append_assoc, String.append_empty]

/-- C8 on a concrete call: Release, threshold 0, `PX4_INFO("up %s", "now")`. -/
theorem C8_always_template_witness :
    emits .Release (envAt 0 12345 7) .INFO = true ∧
    field "up %s" [Val.str "now"] = some "up now" ∧
    (run .Release (envAt 0 12345 7) .INFO "up %s" [Val.str "now"]).bind lines =
      some ["ALWAYS up now\n"] := by
  refine ⟨by decide, by decide, ?_⟩
  obtain ⟨_, _, lbl, h1, hrun⟩ :=
    C8_always_template .Release .INFO (envAt 0 12345 7) "up %s" [Val.str "now"] "up now"
      (Or.inr rfl) (by decide) (by decide)
  have e1 : some lbl = some "ALWAYS " := h1.symm.trans (by decide)
  cases e1
  exact hrun

/-! ## Collaborators -/

/-- C9: for every profile, call-site form and environment, the call makes one
sink call when it is compiled in and passes the guard and none otherwise; the
clock is called once when the call prints and its format holds the timestamp
piece, and not otherwise; the thread identity source is called once when the
call prints and its format holds the thread piece, and not otherwise.  A call
that is filtered or compiled out makes none of the three calls. -/
theorem C9_collaborator_reads (P : Profile) (env : Env) (c : Call) (FMT : String)
    (va : List Val) :
    (run P env c FMT va).map counts =
      some (if emits P env c = true then
        (1, if hasField P c .timestamp_fmt = true then 1 else 0,
          if hasField P c .thread_fmt = true then 1 else 0)
      else (0, 0, 0)) :=
  run_counts P env c FMT va

/-! ## Determinism -/

theorem lines_of_no_sink : ∀ tr : List Event, sinkCalls tr = 0 → lines tr = some [] := by
  intro tr
  induction tr with
  | nil => intro _; rfl
  | cons e es ih =>
    intro h
    cases e with
    | printf f a => simp [sinkCalls, Event.isSink] at h
    | hrt_absolute_time =>
      have : sinkCalls es = 0 := by simpa [sinkCalls, Event.isSink] using h
      simpa [lines] using ih this
    | pthread_self =>
      have : sinkCalls es = 0 := by simpa [sinkCalls, Event.isSink] using h
      simpa [lines] using ih this

/-- A call that does not reach `printf` writes nothing. -/
theorem run_lines_silent (P : Profile) (env : Env) (c : Call) (FMT : String)
    (va : List Val) (h : emits P env c = false) :
    (run P env c FMT va).bind lines = some [] := by
  have hc := run_counts P env c FMT va
  rw [h] at hc
  cases hr : run P env c FMT va with
  | none => simp [hr] at hc
  | some tr =>
    simp only [hr, Option.map_some', Option.some.injEq, counts, Bool.false_eq_true,
      if_false, Prod.mk.injEq] at hc
    simp only [Option.some_bind]
    exact lines_of_no_sink tr hc.1

theorem templateOf_mem (P : Profile) (c : Call) (T : Template)
    (hT : templateOf P c = some T) :
    T ∈ [__px4_log, __px4_log_timestamp, __px4_log_timestamp_thread,
      __px4_log_file_and_line, __px4_log_timestamp_file_and_line,
      __px4_log_thread_file_and_line, __px4_log_timestamp_thread_file_and_line] := by
  cases P <;> cases c <;>
    simp [templateOf, Call.macroOf, PX4_LOG, PX4_INFO, PX4_PANIC, PX4_ERR, PX4_WARN,
      PX4_DEBUG, __px4_log_omit] at hT <;>
    subst hT <;> simp

/-- Every template starts with the label piece, and the timestamp piece, when
present, comes right after it and only there. -/
theorem template_shape (T : Template)
    (hT : T ∈ [__px4_log, __px4_log_timestamp, __px4_log_timestamp_thread,
      __px4_log_file_and_line, __px4_log_timestamp_file_and_line,
      __px4_log_thread_file_and_line, __px4_log_timestamp_thread_file_and_line]) :
    ∃ rest, FmtPiece.timestamp_fmt ∉ rest ∧
      ((FmtPiece.timestamp_fmt ∈ T.fmt ∧ T.fmt = .level_fmt :: .timestamp_fmt :: rest) ∨
       (FmtPiece.timestamp_fmt ∉ T.fmt ∧ T.fmt = .level_fmt :: rest)) := by
  simp only [List.mem_cons, List.mem_singleton, List.not_mem_nil, or_false] at hT
  rcases hT with h | h | h | h | h | h | h <;> subst h
  · exact ⟨[.FMT, .end_fmt], by decide, Or.inr ⟨by decide, rfl⟩⟩
  · exact ⟨[.FMT, .end_fmt], by decide, Or.inl ⟨by decide, rfl⟩⟩
  · exact ⟨[.thread_fmt, .FMT, .end_fmt], by decide, Or.inl ⟨by decide, rfl⟩⟩
  · exact ⟨[.FMT, .file_and_line_fmt, .end_fmt], by decide, Or.inl ⟨by decide, rfl⟩⟩
  · exact ⟨[.FMT, .file_and_line_fmt, .end_fmt], by decide, Or.inl ⟨by decide, rfl⟩⟩
  · exact ⟨[.thread_fmt, .FMT, .file_and_line_fmt, .end_fmt], by decide,
      Or.inr ⟨by decide, rfl⟩⟩
  · exact ⟨[.thread_fmt, .FMT, .file_and_line_fmt, .end_fmt], by decide,
      Or.inl ⟨by decide, rfl⟩⟩

/-- When the user format fits its arguments, every piece sequence has a
text. -/
theorem renderPieces_some (env : Env) (s FMT : String) (va : List Val) (msg : String)
    (hmsg : field FMT va = some msg) :
    ∀ ps : List FmtPiece, ∃ line, renderPieces env s FMT va ps = some line := by
  intro ps
  induction ps with
  | nil => exact ⟨"", rfl⟩
  | cons p ps ih =>
    obtain ⟨b, hb⟩ := ih
    have hp : ∃ a, field (p.text FMT) (pieceArgs env s va p) = some a := by
      cases p with
      | level_fmt => exact ⟨_, field_level_fmt s⟩
      | timestamp_fmt => exact ⟨_, field_timestamp_fmt _⟩
      | thread_fmt => exact ⟨_, field_thread_fmt _⟩
      | FMT => exact ⟨msg, hmsg⟩
      | file_and_line_fmt => exact ⟨_, field_file_and_line_fmt _ _⟩
      | end_fmt => exact ⟨_, field_end_fmt⟩
    obtain ⟨a, ha⟩ := hp
    exact ⟨a ++ b, by simp only [renderPieces, ha, hb]⟩

/-- Pieces other than the timestamp take no argument from the clock. -/
theorem piecesArgs_withClock (env : Env) (clk : Nat) (s : String) (va : List Val) :
    ∀ ps : List FmtPiece, FmtPiece.timestamp_fmt ∉ ps →
      piecesArgs (env.withClock clk) s va ps = piecesArgs env s va ps := by
  intro ps
  induction ps with
  | nil => intro _; rfl
  | cons p ps ih =>
    intro h
    have hp : p ≠ .timestamp_fmt := fun e => h (e ▸ List.mem_cons_self _ _)
    have hps : FmtPiece.timestamp_fmt ∉ ps := fun e => h (List.mem_cons_of_mem _ e)
    have ha : pieceArgs (env.withClock clk) s va p = pieceArgs env s va p := by
      cases p <;> first | rfl | exact absurd rfl hp
    simp only [piecesArgs, ha, ih hps]

/-- A leading format that reads exactly its own arguments writes its text in
front of whatever the rest of the format writes. -/
theorem printf_peel (f1 f2 : String) (a1 a2 : List Val) (x : String)
    (h : field f1 a1 = some x) :
    printf (f1 ++ f2) (a1 ++ a2) = (printf f2 a2).map fun z => x ++ z := by
  have h1 := vprintf_append_args a2 _ _ _ _ _ (field_eq_some f1 a1 x h)
  have h2 := vprintf_append_fmt f2.toList _ _ _ _ _ h1
  simp only [List.nil_append] at h2
  unfold printf
  have hl : (f1 ++ f2).toList = f1.toList ++ f2.toList := by
    simp [String.toList, String.data_append]
  rw [hl, h2]
  cases vprintf none f2.toList a2 with
  | none => rfl
  | some p =>
    simp only [emit, Option.map_some', Option.some.injEq]
    apply String.ext
    simp [String.data_append]

/-- The lines of a template, through `printf` on its format and the arguments
its format pieces read. -/
theorem exec_lines_printf (T : Template)
    (hT : T ∈ [__px4_log, __px4_log_timestamp, __px4_log_timestamp_thread,
      __px4_log_file_and_line, __px4_log_timestamp_file_and_line,
      __px4_log_thread_file_and_line, __px4_log_timestamp_thread_file_and_line])
    (env : Env) (level : Int) (s FMT : String) (va : List Val)
    (hs : level_str env level = some s)
    (ht : level ≤ env.__px4_log_level_current) :
    (T.exec env level FMT va).bind lines =
      (printf (T.format FMT) (piecesArgs env s va T.fmt)).map fun l => [l] := by
  obtain ⟨evs, he, hsink⟩ := evalArgs_aligned T hT env level s va hs
  unfold Template.exec __px4__log_startline
  simp only [ht, if_true, he, Option.map_some', Option.some_bind]
  exact lines_append_printf _ _ _ hsink

theorem run_eq_exec (P : Profile) (c : Call) (T : Template)
    (hT : templateOf P c = some T) (env : Env) (FMT : String) (va : List Val) :
    run P env c FMT va = T.exec env (levelOf P c) FMT va := by
  cases P <;> cases c <;>
    simp [templateOf, Call.macroOf, PX4_LOG, PX4_INFO, PX4_PANIC, PX4_ERR, PX4_WARN,
      PX4_DEBUG, __px4_log_omit] at hT <;>
    subst hT <;> rfl

/-- C10: two runs of the same call that differ only in the value the clock
returns make the same number of sink calls, and either both write nothing, or
both write one line, the two lines being a common beginning, the timestamp
field of the respective clock value (empty when the format has no timestamp
piece) and a common end; the lines are undefined in both runs only when the
user format does not fit its arguments. -/
theorem C10_clock_independence (P : Profile) (c : Call) (env : Env) (FMT : String)
    (va : List Val) (clk1 clk2 : Nat) :
    (run P (env.withClock clk1) c FMT va).map sinkCalls =
      (run P (env.withClock clk2) c FMT va).map sinkCalls ∧
    ((linesAt P env c FMT va clk1 = some [] ∧ linesAt P env c FMT va clk2 = some []) ∨
      (∃ pre suf ts1 ts2,
        linesAt P env c FMT va clk1 = some [pre ++ ts1 ++ suf] ∧
        linesAt P env c FMT va clk2 = some [pre ++ ts2 ++ suf] ∧
        (if hasField P c .timestamp_fmt = true then
          field __px4__log_timestamp_fmt [Val.uint (clk1 % 2 ^ 64)] = some ts1 ∧
          field __px4__log_timestamp_fmt [Val.uint (clk2 % 2 ^ 64)] = some ts2
        else ts1 = "" ∧ ts2 = "")) ∨
      (linesAt P env c FMT va clk1 = none ∧ linesAt P env c FMT va clk2 = none ∧
        field FMT va = none)) := by
  have hcount : ∀ clk, (run P (env.withClock clk) c FMT va).map sinkCalls =
      some (if emits P env c = true then 1 else 0) := by
    intro clk
    have h := congrArg (Option.map fun t : Nat × Nat × Nat => t.1)
      (run_counts P (env.withClock clk) c FMT va)
    rw [Option.map_map] at h
    have hf : ((fun t : Nat × Nat × Nat => t.1) ∘ counts) = sinkCalls := rfl
    rw [hf] at h
    rw [h]
    have he : emits P (env.withClock clk) c = emits P env c := rfl
    rw [he]
    split <;> rfl
  refine ⟨by rw [hcount clk1, hcount clk2], ?_⟩
  cases hemit : emits P env c with
  | false =>
    left
    exact ⟨run_lines_silent P (env.withClock clk1) c FMT va hemit,
      run_lines_silent P (env.withClock clk2) c FMT va hemit⟩
  | true =>
    right
    have hact : active P c = true := by
      simp only [emits, Bool.and_eq_true] at hemit
      exact hemit.1
    have hle : levelOf P c ≤ env.__px4_log_level_current := by
      simp only [emits, Bool.and_eq_true, decide_eq_true_eq] at hemit
      exact hemit.2
    obtain ⟨T, hT⟩ : ∃ T, templateOf P c = some T := by
      cases P <;> cases c <;> first | exact ⟨_, rfl⟩ | exact absurd hact (by decide)
    obtain ⟨s, hs⟩ := level_str_levelOf P c env
    have hmem := templateOf_mem P c T hT
    obtain ⟨rest, hrest, hshape⟩ := template_shape T hmem
    have h1 := field_level_fmt s
    have hbase : ∀ clk, linesAt P env c FMT va clk =
        (printf (T.format FMT) (piecesArgs (env.withClock clk) s va T.fmt)).map
          fun l => [l] := by
      intro clk
      unfold linesAt
      rw [run_eq_exec P c T hT]
      exact exec_lines_printf T hmem (env.withClock clk) _ s FMT va hs hle
    cases hX : printf (formatOf FMT rest) (piecesArgs env s va rest) with
    | none =>
      right
      have hnone : field FMT va = none := by
        cases hf : field FMT va with
        | none => rfl
        | some msg =>
          obtain ⟨line, hline⟩ := renderPieces_some env s FMT va msg hf rest
          have hv := vprintf_renderPieces env s FMT va rest line hline
          have hp : printf (formatOf FMT rest) (piecesArgs env s va rest) = some line := by
            unfold printf
            rw [hv]
            rfl
          rw [hp] at hX
          cases hX
      rcases hshape with ⟨_, hfmt⟩ | ⟨_, hfmt⟩
      · have key : ∀ clk, linesAt P env c FMT va clk = none := by
          intro clk
          rw [hbase clk]
          simp only [Template.format, hfmt, formatOf, piecesArgs, pieceArgs,
            FmtPiece.text, piecesArgs_withClock env clk s va rest hrest]
          rw [printf_peel _ _ _ _ _ h1, printf_peel _ _ _ _ _ (field_timestamp_fmt _), hX]
          rfl
        exact ⟨key clk1, key clk2, hnone⟩
      · have key : ∀ clk, linesAt P env c FMT va clk = none := by
          intro clk
          rw [hbase clk]
          simp only [Template.format, hfmt, formatOf, piecesArgs, pieceArgs,
            FmtPiece.text, piecesArgs_withClock env clk s va rest hrest]
          rw [printf_peel _ _ _ _ _ h1, hX]
          rfl
        exact ⟨key clk1, key clk2, hnone⟩
    | some suf =>
      left
      rcases hshape with ⟨hin, hfmt⟩ | ⟨hout, hfmt⟩
      · have hhas : hasField P c .timestamp_fmt = true := by
          simp only [hasField, hT, decide_eq_true_eq]
          exact hin
        have key : ∀ clk, linesAt P env c FMT va clk = some
            [String.mk (pad true 5 s.toList ++ [' ']) ++
              String.mk (pad true 10 (decimal (clk % 2 ^ 64)) ++ [' ']) ++ suf] := by
          intro clk
          have hclk : (env.withClock clk).hrt_absolute_time = clk := rfl
          rw [hbase clk]
          simp only [Template.format, hfmt, formatOf, piecesArgs, pieceArgs,
            FmtPiece.text, piecesArgs_withClock env clk s va rest hrest, hclk]
          rw [printf_peel _ _ _ _ _ h1, printf_peel _ _ _ _ _ (field_timestamp_fmt _), hX]
          simp only [Option.map_some', String.append_assoc]
        refine ⟨_, suf, _, _, key clk1, key clk2, ?_⟩
        rw [if_pos hhas]
        exact ⟨field_timestamp_fmt _, field_timestamp_fmt _⟩
      · have hhas : ¬ (hasField P c .timestamp_fmt = true) := by
          simp only [hasField, hT, decide_eq_true_eq]
          exact hout
        have key : ∀ clk, linesAt P env c FMT va clk = some
            [String.mk (pad true 5 s.toList ++ [' ']) ++ "" ++ suf] := by
          intro clk
          rw [hbase clk]
          simp only [Template.format, hfmt, formatOf, piecesArgs, pieceArgs,
            FmtPiece.text, piecesArgs_withClock env clk s va rest hrest]
          rw [printf_peel _ _ _ _ _ h1, hX]
          simp only [Option.map_some', String.append_empty]
        refine ⟨_, suf, "", "", key clk1, key clk2, ?_⟩
        rw [if_neg hhas]
        exact ⟨rfl, rfl⟩

/-- C10 on a concrete pair of runs: Debug, threshold 3, `PX4_WARN("v=%d", 1)`
with the clock at 100 and at 2000. -/
theorem C10_clock_independence_witness :
    linesAt .Debug (envAt 3 0 7) .WARN "v=%d" [Val.int 1] 100 =
      some ["WARN  100        v=1 (file X line 42)\n"] ∧
    linesAt .Debug (envAt 3 0 7) .WARN "v=%d" [Val.int 1] 2000 =
      some ["WARN  2000       v=1 (file X line 42)\n"] ∧
    ((run .Debug ((envAt 3 0 7).withClock 100) .WARN "v=%d" [Val.int 1]).map sinkCalls =
      (run .Debug ((envAt 3 0 7).withClock 2000) .WARN "v=%d" [Val.int 1]).map sinkCalls ∧
    ((linesAt .Debug (envAt 3 0 7) .WARN "v=%d" [Val.int 1] 100 = some [] ∧
        linesAt .Debug (envAt 3 0 7) .WARN "v=%d" [Val.int 1] 2000 = some []) ∨
      (∃ pre suf ts1 ts2,
        linesAt .Debug (envAt 3 0 7) .WARN "v=%d" [Val.int 1] 100 =
          some [pre ++ ts1 ++ suf] ∧
        linesAt .Debug (envAt 3 0 7) .WARN "v=%d" [Val.int 1] 2000 =
          some [pre ++ ts2 ++ suf] ∧
        (if hasField .Debug .WARN .timestamp_fmt = true then
          field __px4__log_timestamp_fmt [Val.uint (100 % 2 ^ 64)] = some ts1 ∧
          field __px4__log_timestamp_fmt [Val.uint (2000 % 2 ^ 64)] = some ts2
        else ts1 = "" ∧ ts2 = "")) ∨
      (linesAt .Debug (envAt 3 0 7) .WARN "v=%d" [Val.int 1] 100 = none ∧
        linesAt .Debug (envAt 3 0 7) .WARN "v=%d" [Val.int 1] 2000 = none ∧
        field "v=%d" [Val.int 1] = none))) :=
  ⟨by decide, by decide,
    C10_clock_independence .Debug .WARN (envAt 3 0 7) "v=%d" [Val.int 1] 100 2000⟩

/-! ## Shape of the templates -/

/-- C11: in each of the seven output templates the format pieces are a
subsequence of label, timestamp, thread, user format, file-and-line, end of
line; the label piece is first, the file-and-line piece (when present) comes
directly after the user format, the end-of-line piece is last and occurs
once, and among the fixed pieces only that one has a newline in its text. -/
theorem C11_fixed_field_order (T : Template) (FMT : String) (hT : T ∈ outputTemplates) :
    List.Sublist T.fmt specFieldOrder ∧
    T.fmt.head? = some .level_fmt ∧
    T.fmt.count .level_fmt = 1 ∧
    (FmtPiece.file_and_line_fmt ∈ T.fmt →
      ∃ pre, T.fmt = pre ++ [.FMT, .file_and_line_fmt, .end_fmt]) ∧
    T.fmt.getLast? = some .end_fmt ∧
    T.fmt.count .end_fmt = 1 ∧
    (∀ p ∈ T.fmt, p ≠ .FMT →
      (p.text FMT).toList.count '\n' = if p = .end_fmt then 1 else 0) ∧
    T.format FMT = formatOf FMT T.fmt := by
  have htext : ∀ p : FmtPiece, p ≠ .FMT →
      (p.text FMT).toList.count '\n' = if p = .end_fmt then 1 else 0 := by
    intro p hp
    cases p <;> first | exact absurd rfl hp | (simp only [FmtPiece.text]; decide)
  simp only [outputTemplates, List.mem_cons, List.mem_singleton, List.not_mem_nil,
    or_false] at hT
  rcases hT with h | h | h | h | h | h | h <;> subst h
  · exact ⟨by decide, by decide, by decide, fun h => absurd h (by decide), by decide,
      by decide, fun p _ hp => htext p hp, rfl⟩
  · exact ⟨by decide, by decide, by decide, fun h => absurd h (by decide), by decide,
      by decide, fun p _ hp => htext p hp, rfl⟩
  · exact ⟨by decide, by decide, by decide, fun h => absurd h (by decide), by decide,
      by decide, fun p _ hp => htext p hp, rfl⟩
  · exact ⟨by decide, by decide, by decide, fun _ => ⟨[.level_fmt, .timestamp_fmt], rfl⟩,
      by decide, by decide, fun p _ hp => htext p hp, rfl⟩
  · exact ⟨by decide, by decide, by decide, fun _ => ⟨[.level_fmt, .timestamp_fmt], rfl⟩,
      by decide, by decide, fun p _ hp => htext p hp, rfl⟩
  · exact ⟨by decide, by decide, by decide, fun _ => ⟨[.level_fmt, .thread_fmt], rfl⟩,
      by decide, by decide, fun p _ hp => htext p hp, rfl⟩
  · exact ⟨by decide, by decide, by decide,
      fun _ => ⟨[.level_fmt, .timestamp_fmt, .thread_fmt], rfl⟩,
      by decide, by decide, fun p _ hp => htext p hp, rfl⟩

/-- C11 on `__px4_log_thread_file_and_line` with the user format
`val is %d`. -/
theorem C11_fixed_field_order_witness :
    __px4_log_thread_file_and_line ∈ outputTemplates ∧
    List.Sublist __px4_log_thread_file_and_line.fmt specFieldOrder ∧
    __px4_log_thread_file_and_line.fmt.getLast? = some .end_fmt ∧
    __px4_log_thread_file_and_line.format "val is %d" =
      "%-5s %#X val is %d (file %s line %u)\n" :=
  ⟨by decide,
    (C11_fixed_field_order __px4_log_thread_file_and_line "val is %d" (by decide)).1,
    (C11_fixed_field_order __px4_log_thread_file_and_line "val is %d" (by decide)).2.2.2.2.1,
    by decide⟩

/-! ## Initial threshold -/

theorem run_sinkCalls (P : Profile) (env : Env) (c : Call) (FMT : String) (va : List Val) :
    (run P env c FMT va).map sinkCalls = some (if emits P env c = true then 1 else 0) := by
  have h := congrArg (Option.map fun t : Nat × Nat × Nat => t.1) (run_counts P env c FMT va)
  rw [Option.map_map] at h
  have hf : ((fun t : Nat × Nat × Nat => t.1) ∘ counts) = sinkCalls := rfl
  rw [hf] at h
  rw [h]
  split <;> rfl

/-- C13: `PX4_LOG_LEVEL_AT_RUN_TIME` is the WARN level 3 (one definition
for all profiles); with the threshold at that value, in every profile a PANIC
call and an ERROR call make one sink call each, a WARN call makes one when it
is compiled in, and a DEBUG call makes none, Trace and Debug included. -/
theorem C13_initial_threshold (P : Profile) (env : Env) (FMT : String) (va : List Val) :
    PX4_LOG_LEVEL_AT_RUN_TIME = 3 ∧
    PX4_LOG_LEVEL_AT_RUN_TIME = specRank .WARN ∧
    (run P (env.withThreshold PX4_LOG_LEVEL_AT_RUN_TIME) .PANIC FMT va).map sinkCalls
      = some 1 ∧
    (run P (env.withThreshold PX4_LOG_LEVEL_AT_RUN_TIME) .ERR FMT va).map sinkCalls
      = some 1 ∧
    (run P (env.withThreshold PX4_LOG_LEVEL_AT_RUN_TIME) .WARN FMT va).map sinkCalls
      = some (if active P .WARN = true then 1 else 0) ∧
    (run P (env.withThreshold PX4_LOG_LEVEL_AT_RUN_TIME) .DEBUG FMT va).map sinkCalls
      = some 0 ∧
    active .Trace .DEBUG = true ∧ active .Debug .DEBUG = true := by
  refine ⟨rfl, rfl, ?_, ?_, ?_, ?_, rfl, rfl⟩
  · rw [run_sinkCalls]; cases P <;> rfl
  · rw [run_sinkCalls]; cases P <;> rfl
  · rw [run_sinkCalls]; cases P <;> rfl
  · rw [run_sinkCalls]; cases P <;> rfl

/-! ## Alignment of formats and arguments -/

/-- C14: in each of the seven output templates the argument pieces are, in
order, the ones belonging to the format pieces (label, then clock iff the
format has the timestamp piece, then thread iff it has the thread piece, then
the user arguments, then file and line iff it has the file-and-line piece);
the values passed to `printf` are the concatenation of what the format pieces
read, and every fixed piece reads exactly the values its argument piece
supplies. -/
theorem C14_format_argument_alignment (T : Template) (env : Env) (level : Int)
    (s FMT : String) (va : List Val) (hT : T ∈ outputTemplates)
    (hs : level_str env level = some s) :
    T.arg = T.fmt.filterMap argOf ∧
    (ArgPiece.level_arg ∈ T.arg ∧ FmtPiece.level_fmt ∈ T.fmt) ∧
    (ArgPiece.timestamp_arg ∈ T.arg ↔ FmtPiece.timestamp_fmt ∈ T.fmt) ∧
    (ArgPiece.thread_arg ∈ T.arg ↔ FmtPiece.thread_fmt ∈ T.fmt) ∧
    (ArgPiece.file_and_line_arg ∈ T.arg ↔ FmtPiece.file_and_line_fmt ∈ T.fmt) ∧
    (∃ evs, evalArgs env level va T.arg = some (evs, piecesArgs env s va T.fmt)) ∧
    (∀ p ∈ T.fmt, p ≠ .FMT →
      ∃ txt, field (p.text FMT) (pieceArgs env s va p) = some txt) := by
  have hfix : ∀ p : FmtPiece, p ≠ .FMT →
      ∃ txt, field (p.text FMT) (pieceArgs env s va p) = some txt := by
    intro p hp
    cases p with
    | level_fmt => exact ⟨_, field_level_fmt s⟩
    | timestamp_fmt => exact ⟨_, field_timestamp_fmt _⟩
    | thread_fmt => exact ⟨_, field_thread_fmt _⟩
    | FMT => exact absurd rfl hp
    | file_and_line_fmt => exact ⟨_, field_file_and_line_fmt _ _⟩
    | end_fmt => exact ⟨_, field_end_fmt⟩
  obtain ⟨evs, he, _⟩ := evalArgs_aligned T hT env level s va hs
  refine ⟨?_, ?_, ?_, ?_, ?_, ⟨evs, he⟩, fun p _ hp => hfix p hp⟩ <;>
    (simp only [outputTemplates, List.mem_cons, List.mem_singleton, List.not_mem_nil,
      or_false] at hT
     rcases hT with h | h | h | h | h | h | h <;> subst h <;> decide)

/-- C14 on `__px4_log_timestamp_thread_file_and_line` at level 2 with the
user arguments of `PX4_ERR("fail %s", "io")`. -/
theorem C14_format_argument_alignment_witness :
    __px4_log_timestamp_thread_file_and_line ∈ outputTemplates ∧
    level_str (envAt 3 12345 48879) 2 = some "ERROR" ∧
    __px4_log_timestamp_thread_file_and_line.arg =
      [.level_arg, .timestamp_arg, .thread_arg, .VA_ARGS, .file_and_line_arg] ∧
    evalArgs (envAt 3 12345 48879) 2 [Val.str "io"]
        __px4_log_timestamp_thread_file_and_line.arg =
      some ([Event.hrt_absolute_time, Event.pthread_self],
        [Val.str "ERROR", Val.uint 12345, Val.uint 48879, Val.str "io", Val.str "X",
          Val.int 42]) := by
  refine ⟨by decide, by decide, ?_, ?_⟩
  · exact (C14_format_argument_alignment __px4_log_timestamp_thread_file_and_line
      (envAt 3 12345 48879) 2 "ERROR" "fail %s" [Val.str "io"] (by decide) (by decide)).1
  · decide

/-! ## Equal templates -/

/-- C15: `__px4_log_file_and_line` and `__px4_log_timestamp_file_and_line`
are the same template: same format string and same evaluated arguments for
every level, format and argument list; so for every environment the Default
and Debug runs of PANIC, ERROR and WARN, and the Release and Debug runs of
PANIC and ERROR, perform the same events (same clock read, same `printf`
call). -/
theorem C15_template_equivalence (env : Env) (level : Int) (FMT : String)
    (va : List Val) :
    __px4_log_file_and_line = __px4_log_timestamp_file_and_line ∧
    __px4_log_file_and_line.format FMT = __px4_log_timestamp_file_and_line.format FMT ∧
    evalArgs env level va __px4_log_file_and_line.arg =
      evalArgs env level va __px4_log_timestamp_file_and_line.arg ∧
    __px4_log_file_and_line.exec env level FMT va =
      __px4_log_timestamp_file_and_line.exec env level FMT va ∧
    run .Default env .PANIC FMT va = run .Debug env .PANIC FMT va ∧
    run .Default env .ERR FMT va = run .Debug env .ERR FMT va ∧
    run .Default env .WARN FMT va = run .Debug env .WARN FMT va ∧
    run .Release env .PANIC FMT va = run .Debug env .PANIC FMT va ∧
    run .Release env .ERR FMT va = run .Debug env .ERR FMT va :=
  ⟨rfl, rfl, rfl, rfl, rfl, rfl, rfl, rfl, rfl⟩

/-! ## Label lookup -/

/-- C16: in every profile, the level constant of each of the six call-site
forms lies in 0..4, so the access `__px4_log_level_str[level]` is inside the
five-entry table, and PANIC, ERROR, WARN, DEBUG pass pairwise distinct
indices. -/
theorem C16_label_lookup_in_bounds (P : Profile) (c : Call) (env : Env) :
    (0 ≤ levelOf P c ∧ levelOf P c < 5) ∧
    (level_str env (levelOf P c)).isSome = true ∧
    ([Call.PANIC, Call.ERR, Call.WARN, Call.DEBUG].map (levelOf P)).Nodup ∧
    [Call.PANIC, Call.ERR, Call.WARN, Call.DEBUG].map (levelOf P) = [1, 2, 3, 4] := by
  obtain ⟨s, hs⟩ := level_str_levelOf P c env
  refine ⟨?_, by rw [hs]; rfl, ?_, ?_⟩
  · cases P <;> cases c <;> decide
  · cases P <;> decide
  · cases P <;> rfl

/-! ## Thread tag -/

theorem hexDigitValue_digitChar :
    ∀ d, d < 16 → hexDigitValue (Char.toUpper (Nat.digitChar d)) = d ∧
      Char.toUpper (Nat.digitChar d) ∈ "0123456789ABCDEF".toList := by
  decide

/-- Reading back the digits `Nat.toDigitsCore` puts in front of `ds`. -/
theorem hexValue_toDigitsCore :
    ∀ (fuel n : Nat) (ds : List Char), n < fuel →
      ((Nat.toDigitsCore 16 fuel n ds).map Char.toUpper).foldl
          (fun acc c => 16 * acc + hexDigitValue c) 0 =
        (ds.map Char.toUpper).foldl (fun acc c => 16 * acc + hexDigitValue c) n := by
  intro fuel
  induction fuel with
  | zero => intro n ds h; exact absurd h (Nat.not_lt_zero n)
  | succ fuel ih =>
    intro n ds h
    have hd := (hexDigitValue_digitChar (n % 16) (Nat.mod_lt n (by decide))).1
    simp only [Nat.toDigitsCore]
    split
    · rename_i h0
      have hn : n % 16 = n := by omega
      rw [hn] at hd
      simp only [List.map_cons, List.foldl_cons, hd, hn, Nat.mul_zero, Nat.zero_add]
    · rename_i h0
      have hlt : n / 16 < fuel := by omega
      rw [ih (n / 16) _ hlt]
      simp only [List.map_cons, List.foldl_cons, hd]
      have hn : 16 * (n / 16) + n % 16 = n := Nat.div_add_mod n 16
      rw [hn]

theorem mem_toDigitsCore :
    ∀ (fuel n : Nat) (ds : List Char) (c : Char), c ∈ Nat.toDigitsCore 16 fuel n ds →
      c ∈ ds ∨ ∃ d, d < 16 ∧ c = Nat.digitChar d := by
  intro fuel
  induction fuel with
  | zero => intro n ds c h; exact Or.inl (by simpa [Nat.toDigitsCore] using h)
  | succ fuel ih =>
    intro n ds c h
    simp only [Nat.toDigitsCore] at h
    have hm : n % 16 < 16 := Nat.mod_lt n (by decide)
    split at h
    · rcases List.mem_cons.1 h with h1 | h1
      · exact Or.inr ⟨n % 16, hm, h1⟩
      · exact Or.inl h1
    · rcases ih _ _ _ h with h1 | h1
      · rcases List.mem_cons.1 h1 with h2 | h2
        · exact Or.inr ⟨n % 16, hm, h2⟩
        · exact Or.inl h2
      · exact Or.inr h1

/-- The digits `%X` writes denote the value written. -/
theorem hexValue_hexUpper (n : Nat) : hexValue (hexUpper n) = n := by
  unfold hexValue hexUpper Nat.toDigits
  rw [hexValue_toDigitsCore (n + 1) n [] (Nat.lt_succ_self n)]
  rfl

theorem hexUpper_digits (n : Nat) :
    ∀ c ∈ hexUpper n, c ∈ "0123456789ABCDEF".toList := by
  intro c hc
  unfold hexUpper Nat.toDigits at hc
  obtain ⟨c0, hc0, rfl⟩ := List.mem_map.1 hc
  rcases mem_toDigitsCore _ _ _ _ hc0 with h | ⟨d, hd, rfl⟩
  · simp at h
  · exact (hexDigitValue_digitChar d hd).2

theorem field_thread_fmt_tag (tid : Nat) :
    field __px4__log_thread_fmt [Val.uint (tid % 2 ^ 32)] = some (threadTag tid) := by
  have key : ∀ n : Nat,
      String.mk (pad false 0 (if n ≠ 0 then '0' :: 'X' :: hexUpper n else hexUpper n) ++ [' '])
        = String.mk ((if n = 0 then [] else ['0', 'X']) ++ hexUpper n ++ [' ']) := by
    intro n
    by_cases h : n = 0 <;> simp [pad, h]
  rw [field_thread_fmt]
  exact congrArg some (key _)

/-- C12 as stated fails: for the identifier 0 the thread field is `0` and a
space, with no marker, and for an identifier above 32 bits it shows only the
low 32 bits; the Trace lines carry these fields. -/
theorem C12_thread_tag_without_marker :
    field __px4__log_thread_fmt (pieceArgs (envAt 3 12345 0) "ERROR" [] .thread_fmt)
      = some "0 " ∧
    specThreadTag 0 = "0X0 " ∧
    (run .Trace (envAt 3 12345 0) .ERR "fail %s" [Val.str "io"]).bind lines =
      some ["ERROR 12345      0 fail io (file X line 42)\n"] ∧
    field __px4__log_thread_fmt
        (pieceArgs (envAt 3 12345 4295016175) "ERROR" [] .thread_fmt)
      = some "0XBEEF " ∧
    specThreadTag 4295016175 = "0X10000BEEF " ∧
    (run .Trace (envAt 3 12345 4295016175) .ERR "fail %s" [Val.str "io"]).bind lines =
      some ["ERROR 12345      0XBEEF fail io (file X line 42)\n"] := by
  decide

/-- C12, amended: the thread argument is the identifier cast to `unsigned
int` (modulo 2^32), read with one call of the thread identity source; the
thread field is `0X` (left out when the cast value is zero), the cast value in
upper-case hexadecimal digits that denote exactly that value, and one space;
for an identifier that is not zero and fits 32 bits this is the marker, the
identifier in hexadecimal and a space. -/
theorem C12_thread_tag_rendering (env : Env) (level : Int) (s : String) (va : List Val) :
    evalArg env level va .thread_arg =
      some ([Event.pthread_self], [Val.uint (env.pthread_self % 2 ^ 32)]) ∧
    pieceArgs env s va .thread_fmt = [Val.uint (env.pthread_self % 2 ^ 32)] ∧
    field __px4__log_thread_fmt (pieceArgs env s va .thread_fmt) =
      some (threadTag env.pthread_self) ∧
    threadTag env.pthread_self =
      String.mk ((if env.pthread_self % 2 ^ 32 = 0 then [] else ['0', 'X']) ++
        hexUpper (env.pthread_self % 2 ^ 32) ++ [' ']) ∧
    hexValue (hexUpper (env.pthread_self % 2 ^ 32)) = env.pthread_self % 2 ^ 32 ∧
    (∀ c ∈ hexUpper (env.pthread_self % 2 ^ 32), c ∈ "0123456789ABCDEF".toList) ∧
    (0 < env.pthread_self ∧ env.pthread_self < 2 ^ 32 →
      threadTag env.pthread_self = specThreadTag env.pthread_self) := by
  refine ⟨rfl, rfl, field_thread_fmt_tag _, rfl, hexValue_hexUpper _, hexUpper_digits _, ?_⟩
  rintro ⟨h0, h1⟩
  have hm : env.pthread_self % 2 ^ 32 = env.pthread_self := Nat.mod_eq_of_lt h1
  have hne : ¬ (env.pthread_self = 0) := by omega
  unfold threadTag specThreadTag
  rw [hm, if_neg hne]

/-- C12 (amended) on thread 0xBEEF: the field is `0XBEEF` and a space, and
the Trace line of Scenario C carries it. -/
theorem C12_thread_tag_rendering_witness :
    field __px4__log_thread_fmt (pieceArgs (envAt 3 12345 48879) "ERROR" [] .thread_fmt)
      = some "0XBEEF " ∧
    hexValue "BEEF".toList = 48879 ∧
    specThreadTag 48879 = "0XBEEF " ∧
    (run .Trace (envAt 3 12345 48879) .ERR "fail %s" [Val.str "io"]).bind lines =
      some ["ERROR 12345      0XBEEF fail io (file X line 42)\n"] := by
  have h := C12_thread_tag_rendering (envAt 3 12345 48879) 2 "ERROR" []
  have e : threadTag (envAt 3 12345 48879).pthread_self = "0XBEEF " := by decide
  refine ⟨?_, by decide, by decide, by decide⟩
  rw [h.2.2.1, e]

end PX4Log
